import Mathlib

/-!
# metrics-app: the asynchronous logging subsystem and the metrics endpoint

A shallow embedding of `internal/util/logger.go`, of the request path of
`internal/endpoints` and of the query of `internal/repository/sqlite.go`,
followed by the properties proved about them.

Conventions of the embedding.

* A pointer-typed field holds the value of the object it refers to, or `none`
  for a nil pointer.  The model follows one `MetricsLogger` object.
* A Go call either returns, suspends on a channel or wait-group operation, or
  aborts with a run-time error: `Outcome`.
* The goroutine started by `go m.logWritter()` is the flag `World.writer`; its
  loop is given one iteration at a time (`writerStep`) and as a whole
  (`logWritterLoop`).
* What the environment decides (the result of `os.OpenFile`, which writes to
  the file fail) is an argument or a field holding the coming answers.
-/

/-- Result of running a piece of Go code. -/
inductive Outcome (α : Type) where
  /-- The code returned. -/
  | done (a : α)
  /-- The code is suspended on a channel or wait-group operation. -/
  | blocked
  /-- The code aborted with a run-time error. -/
  | panic
  deriving DecidableEq, Repr

/-- Go `error` values: package-level variables made by `errors.New`
(identified by the variable), errors wrapping another one (`fmt.Errorf` with
one `%w`), errors wrapping two (`errors.Join`), and all others. -/
inductive GoError where
  | pkgVar (name : String) (msg : String)
  | wrapped (msg : String) (inner : GoError)
  | joined (first second : GoError)
  | other (msg : String)
  deriving DecidableEq, Repr

/-- A value of type `interface{}`: dynamic type `int`, dynamic type `string`,
or any other dynamic type, given by what the verb `%v` prints for it. -/
inductive GoVal where
  | int (n : Int)
  | str (s : String)
  | other (rendering : String)
  deriving DecidableEq, Repr

namespace fmt

/-- What `%v` prints for one operand. -/
def render : GoVal → String
  | .int n => toString n
  | .str s => s
  | .other r => r

/-- The call `fmt.Sprint(a)` for a single operand. -/
def Sprint (a : GoVal) : String := render a

/-- The call `fmt.Sprintf("%v", s)` for `s` of type `[]interface{}`: the elements
separated by single spaces, between square brackets. -/
def SprintfSlice (s : List GoVal) : String :=
  "[" ++ " ".intercalate (s.map render) ++ "]"

end fmt

/-- The slice expression `msg[1 : len(msg)-1]`: a run-time error when `msg` has
fewer than two bytes.  It is only applied to strings that start and end with a
one-byte character, where cutting bytes and cutting characters agree. -/
def sliceInner (msg : String) : Option String :=
  if msg.utf8ByteSize < 2 then none
  else some (String.mk (msg.data.drop 1).dropLast)

namespace zapcore

def DebugLevel : Int := -1
def InfoLevel : Int := 0
def WarnLevel : Int := 1
def ErrorLevel : Int := 2

end zapcore

namespace util

def LOG_BUFFER_SIZE : Nat := 1000

def ErrLogNotInitialized : GoError :=
  .pkgVar "ErrLogNotInitialized" "log object is not initialized yet"

def LOG_LEVEL_ERROR : Int := 1
def LOG_LEVEL_WARN : Int := 2
def LOG_LEVEL_INFO : Int := 3
def LOG_LEVEL_DEBUG : Int := 4

/-- The package variables `globalLogLevel` and `LOG_FOLDER_NAME_WITH_PATH`. -/
structure Globals where
  globalLogLevel : Int := 3
  LOG_FOLDER_NAME_WITH_PATH : String := "../log"
  deriving DecidableEq, Repr

structure LeveledLogger where
  level : Int
  logMsg : String
  deriving DecidableEq, Repr

/-- A value of type `chan LeveledLogger`: the buffered elements, oldest first,
the capacity given to `make`, and whether `close` was called. -/
structure Chan where
  buf : List LeveledLogger
  cap : Nat
  closed : Bool
  deriving DecidableEq, Repr

/-- An open file description.  `lines` are the log entries (zap level and
message) the file holds, `attempts` the entries for which a write was issued,
`faults` the answers to the coming writes (`true`: the write fails; none left:
the write succeeds), `closeCalls` the number of `Close` calls received. -/
structure File where
  lines : List (Int × String)
  attempts : List (Int × String) := []
  faults : List Bool := []
  closed : Bool := false
  closeCalls : Nat := 0
  deriving DecidableEq, Repr

/-- The `*zap.Logger` built by `zapLoggerInit`: one console core whose level
enabler is `level` and whose output is the file of `m.handle`.  `calls` is the
history of its `Error`, `Warn`, `Info` and `Debug` calls. -/
structure ZapLogger where
  level : Int
  calls : List (Int × String) := []
  deriving DecidableEq, Repr

structure MetricsLogger where
  logBuffer : Option Chan := none
  handle : Option File := none
  wg : Option Nat := none
  loggerInitialized : Bool := false
  zapLogger : Option ZapLogger := none
  deriving DecidableEq, Repr

/-- A logger object together with the goroutine serving it: `writer` says that
a `logWritter` goroutine is ranging over the channel of `m.logBuffer`. -/
structure World where
  m : MetricsLogger := {}
  writer : Bool := false
  deriving DecidableEq, Repr

/-- The method `(*os.File).Write` for one encoded entry; the error is not looked at by
the caller. -/
def File.Write (f : File) (entry : Int × String) : File :=
  if f.closed then { f with attempts := f.attempts ++ [entry] }
  else
    match f.faults with
    | true :: rest => { f with attempts := f.attempts ++ [entry], faults := rest }
    | false :: rest =>
      { f with lines := f.lines ++ [entry], attempts := f.attempts ++ [entry], faults := rest }
    | [] => { f with lines := f.lines ++ [entry], attempts := f.attempts ++ [entry] }

/-- The method `(*os.File).Close`; the error of a second close is not looked at. -/
def File.Close (f : File) : File :=
  { f with closed := true, closeCalls := f.closeCalls + 1 }

def GlobalLogLevelSetter (g : Globals) : Int :=
  if g.globalLogLevel = LOG_LEVEL_ERROR then zapcore.ErrorLevel
  else if g.globalLogLevel = LOG_LEVEL_WARN then zapcore.WarnLevel
  else if g.globalLogLevel = LOG_LEVEL_INFO then zapcore.InfoLevel
  else if g.globalLogLevel = LOG_LEVEL_DEBUG then zapcore.DebugLevel
  else 0 -- the zero value of `zapcore.Level`, which is `InfoLevel`

def SetCommonLoggerAttributes (g : Globals) (GlobalLogLevel : Int) : Globals :=
  { g with globalLogLevel := GlobalLogLevel }

def SetLoggerPath (g : Globals) (logPath : String) : Globals :=
  { g with LOG_FOLDER_NAME_WITH_PATH := logPath }

def zapLoggerInit (g : Globals) (m : MetricsLogger) : MetricsLogger :=
  { m with zapLogger := some { level := GlobalLogLevelSetter g } }

/-- A call `m.zapLogger.Error(msg)`, `.Warn(msg)`, `.Info(msg)` or
`.Debug(msg)`, `lvl` being the zap level of the method: the entry is handed
to the core when the core's level enables it (`lvl >= level`), and the core
writes it to the file. -/
def zapCall (m : MetricsLogger) (lvl : Int) (msg : String) : Outcome MetricsLogger :=
  match m.zapLogger with
  | none => .panic
  | some z =>
    let z1 : ZapLogger := { z with calls := z.calls ++ [(lvl, msg)] }
    if z.level ≤ lvl then
      .done { m with zapLogger := some z1, handle := m.handle.map (File.Write · (lvl, msg)) }
    else .done { m with zapLogger := some z1 }

/-- The body of the loop of `logWritter` for one received `logdata`. -/
def logWritterBody (m : MetricsLogger) (logdata : LeveledLogger) : Outcome MetricsLogger :=
  if logdata.level = LOG_LEVEL_ERROR then zapCall m zapcore.ErrorLevel logdata.logMsg
  else if logdata.level = LOG_LEVEL_WARN then zapCall m zapcore.WarnLevel logdata.logMsg
  else if logdata.level = LOG_LEVEL_INFO then zapCall m zapcore.InfoLevel logdata.logMsg
  else if logdata.level = LOG_LEVEL_DEBUG then zapCall m zapcore.DebugLevel logdata.logMsg
  else .done m

/-- The statement `m.wg.Done()`. -/
def wgDone (m : MetricsLogger) : Outcome MetricsLogger :=
  match m.wg with
  | none => .panic
  | some 0 => .panic
  | some (n + 1) => .done { m with wg := some n }

/-- One step of the `logWritter` goroutine: receive the oldest element and run
the loop body on it; on a closed and empty channel leave the loop and run
`m.wg.Done()`; on an open and empty channel stay suspended. -/
def writerStep (w : World) : Outcome World :=
  if w.writer = false then .blocked
  else
    match w.m.logBuffer with
    | none => .blocked
    | some c =>
      match c.buf with
      | logdata :: rest =>
        match logWritterBody { w.m with logBuffer := some { c with buf := rest } } logdata with
        | .done m1 => .done { w with m := m1 }
        | .blocked => .blocked
        | .panic => .panic
      | [] =>
        if c.closed then
          match wgDone w.m with
          | .done m1 => .done { m := m1, writer := false }
          | .blocked => .blocked
          | .panic => .panic
        else .blocked

/-- The loop of `logWritter` over the elements still buffered in a closed
channel, oldest first. -/
def logWritterLoop (m : MetricsLogger) : List LeveledLogger → Outcome MetricsLogger
  | [] => .done m
  | logdata :: rest =>
    match logWritterBody m logdata with
    | .done m1 => logWritterLoop m1 rest
    | .blocked => .blocked
    | .panic => .panic

def Init (g : Globals) (OpenFile : String → Bool → Except GoError File)
    (w : World) (logFileName : String) (rewrite : Bool) : World × Option GoError :=
  let m1 : MetricsLogger :=
    { w.m with wg := some 0, logBuffer := some { buf := [], cap := LOG_BUFFER_SIZE, closed := false },
               handle := none }
  let fileWithRelPath := g.LOG_FOLDER_NAME_WITH_PATH ++ "/" ++ logFileName
  match OpenFile fileWithRelPath rewrite with
  | .error err => ({ m := m1, writer := false }, some err)
  | .ok f =>
    let m2 := zapLoggerInit g { m1 with handle := some f }
    let m3 := { m2 with wg := m2.wg.map (· + 1) }
    ({ m := { m3 with loggerInitialized := true }, writer := true }, none)

/-- The first part of `LogEvent`: the `LeveledLogger` built from the
arguments; `none` when the slice expression aborts. -/
def buildEvent (v : List GoVal) : Option LeveledLogger :=
  match v with
  | [] => some { level := 0, logMsg := "" }
  | [a] => some { level := LOG_LEVEL_INFO, logMsg := fmt.Sprint a }
  | a :: rest =>
    let lm : Int × String :=
      match a with
      | .int level =>
        if level = LOG_LEVEL_ERROR ∨ level = LOG_LEVEL_WARN ∨ level = LOG_LEVEL_INFO
            ∨ level = LOG_LEVEL_DEBUG then
          (level, fmt.SprintfSlice rest)
        else (LOG_LEVEL_INFO, fmt.SprintfSlice v)
      | _ => (LOG_LEVEL_INFO, fmt.SprintfSlice v)
    (sliceInner lm.2).map fun msg => { level := lm.1, logMsg := msg }

/-- The send statement `m.logBuffer <- lobj`. -/
def chanSend (c : Option Chan) (lobj : LeveledLogger) : Outcome Chan :=
  match c with
  | none => .blocked
  | some c =>
    if c.closed then .panic
    else if c.buf.length < c.cap then .done { c with buf := c.buf ++ [lobj] }
    else .blocked

def LogEvent (w : World) (v : List GoVal) : Outcome (World × Option GoError) :=
  match buildEvent v with
  | none => .panic
  | some lobj =>
    if w.m.loggerInitialized = false then .done (w, some ErrLogNotInitialized)
    else
      match chanSend w.m.logBuffer lobj with
      | .done c => .done ({ w with m := { w.m with logBuffer := some c } }, none)
      | .blocked => .blocked
      | .panic => .panic

/-- The call `close(m.logBuffer)`. -/
def chanClose (c : Option Chan) : Outcome Chan :=
  match c with
  | none => .panic
  | some c => if c.closed then .panic else .done { c with closed := true }

/-- The statement `m.wg.Wait()` of `DeInit`, with the writer goroutine run to
its end meanwhile: the writer drains the closed channel and calls
`m.wg.Done()`; `Wait` returns once the counter is zero. -/
def wgWait (w : World) : Outcome World :=
  let afterWriter : Outcome World :=
    if w.writer = false then .done w
    else
      match w.m.logBuffer with
      | none => .blocked
      | some c =>
        match logWritterLoop { w.m with logBuffer := some { c with buf := [] } } c.buf with
        | .done m1 =>
          match wgDone m1 with
          | .done m2 => .done { m := m2, writer := false }
          | .blocked => .blocked
          | .panic => .panic
        | .blocked => .blocked
        | .panic => .panic
  match afterWriter with
  | .done w1 =>
    match w1.m.wg with
    | none => .panic
    | some 0 => .done w1
    | some _ => .blocked
  | .blocked => .blocked
  | .panic => .panic

def DeInit (w : World) : Outcome World :=
  if w.m.loggerInitialized = false then .done w
  else
    let m1 := { w.m with loggerInitialized := false }
    match chanClose m1.logBuffer with
    | .done c =>
      match wgWait { w with m := { m1 with logBuffer := some c } } with
      | .done w2 => .done { w2 with m := { w2.m with handle := w2.m.handle.map File.Close } }
      | .blocked => .blocked
      | .panic => .panic
    | .blocked => .blocked
    | .panic => .panic

end util

/-! ## Runs of the logger -/

namespace util

/-- What can happen to a logger: a call of `Init` (with the answer of
`os.OpenFile`), a call of `LogEvent`, one step of the writer goroutine, a
call of `DeInit`. -/
inductive Action where
  | init (g : Globals) (opened : Except GoError File) (logFileName : String) (rewrite : Bool)
  | logEvent (v : List GoVal)
  | writer
  | deInit
  deriving Repr

/-- The effect of one action.  `Init` is only run on a logger with no live
writer goroutine. -/
def step (w : World) : Action → Outcome World
  | .init g opened logFileName rewrite =>
    if w.writer = false then .done (Init g (fun _ _ => opened) w logFileName rewrite).1
    else .blocked
  | .logEvent v =>
    match LogEvent w v with
    | .done (w1, _) => .done w1
    | .blocked => .blocked
    | .panic => .panic
  | .writer => writerStep w
  | .deInit => DeInit w

/-- The effect of a sequence of actions, each one run to its end before the
next starts. -/
def run (w : World) : List Action → Outcome World
  | [] => .done w
  | a :: rest =>
    match step w a with
    | .done w1 => run w1 rest
    | .blocked => .blocked
    | .panic => .panic

/-- States a logger can be in: reached from the zero value `MetricsLogger{}`
by a sequence of actions. -/
def Reachable (w : World) : Prop := ∃ acts : List Action, run {} acts = .done w

/-- The logger is in its Running state. -/
def Running (w : World) : Prop := w.m.loggerInitialized = true

/-- The events waiting in the queue, oldest first. -/
def queue (w : World) : List LeveledLogger :=
  match w.m.logBuffer with
  | none => []
  | some c => c.buf

/-- Shape of the states a logger goes through: the flag `loggerInitialized` is
set exactly while the writer goroutine lives, and then the objects made by
`Init` are in place; a channel always has the capacity given by `Init` and
never holds more. -/
def WellFormed (w : World) : Prop :=
  (w.m.loggerInitialized = true →
    w.writer = true ∧ w.m.wg = some 1 ∧ w.m.zapLogger.isSome = true ∧
    w.m.handle.isSome = true ∧ ∃ c, w.m.logBuffer = some c ∧ c.closed = false) ∧
  (w.m.loggerInitialized = false → w.writer = false) ∧
  (∀ c, w.m.logBuffer = some c → c.cap = LOG_BUFFER_SIZE ∧ c.buf.length ≤ c.cap)

/-- The world with `ev` appended at the tail of the channel `c`. -/
def enqueue (w : World) (c : Chan) (ev : LeveledLogger) : World :=
  { w with m := { w.m with logBuffer := some { c with buf := c.buf ++ [ev] } } }

/-- The message made of the renderings of `args`, separated by single spaces. -/
def joinArgs (args : List GoVal) : String := " ".intercalate (args.map fmt.render)

/-- A logger right after a successful `Init` of the zero value, the log file
being empty and every write succeeding. -/
def freshRunning : World :=
  (Init {} (fun _ _ => .ok { lines := [] }) {} "webService.log" false).1

end util

namespace util

/-- The filter of the specification: an event of level `level` is emitted
under the threshold `threshold` when its severity rank, the numeric value of
the level (ERROR = 1, ..., DEBUG = 4), is at most that of the threshold. -/
def ShouldEmit (threshold level : Int) : Bool := decide (level ≤ threshold)

/-- The zap level of the method `logWritter` calls for an event of level
`level`: `Error` for 1, `Warn` for 2, `Info` for 3, `Debug` for 4. -/
def zapLevelOf (level : Int) : Int :=
  if level = LOG_LEVEL_ERROR then zapcore.ErrorLevel
  else if level = LOG_LEVEL_WARN then zapcore.WarnLevel
  else if level = LOG_LEVEL_INFO then zapcore.InfoLevel
  else zapcore.DebugLevel

/-- An event level is one of the four recognised ones. -/
def isLevel (level : Int) : Prop :=
  level = LOG_LEVEL_ERROR ∨ level = LOG_LEVEL_WARN ∨ level = LOG_LEVEL_INFO ∨
    level = LOG_LEVEL_DEBUG

instance (level : Int) : Decidable (isLevel level) := by
  unfold isLevel; infer_instance

/-- A logger as `Init` leaves it under the globals `g`, with the events `q`
in its queue and the log file `f`. -/
def runningWith (g : Globals) (f : File) (q : List LeveledLogger) : World :=
  { m := { logBuffer := some { buf := q, cap := LOG_BUFFER_SIZE, closed := false },
           handle := some f, wg := some 1, loggerInitialized := true,
           zapLogger := some { level := GlobalLogLevelSetter g } },
    writer := true }

end util

namespace util

/-- An event passes the threshold `t`: its level is one of the four levels
and `ShouldEmit` holds for it. -/
def passes (t : Int) (ev : LeveledLogger) : Bool :=
  decide (isLevel ev.level) && ShouldEmit t ev.level

/-- The log entry of an event: the zap level of the method called for it and
its message. -/
def entryOf (ev : LeveledLogger) : Int × String := (zapLevelOf ev.level, ev.logMsg)

/-- The entries of the events of `evs` that pass the threshold `t`, in the
order of `evs`. -/
def entriesOf (t : Int) (evs : List LeveledLogger) : List (Int × String) :=
  (evs.filter (passes t)).map entryOf

/-- The entries of the events of `evs` whose level is one of the four levels,
in the order of `evs`. -/
def callsOf (evs : List LeveledLogger) : List (Int × String) :=
  (evs.filter fun ev => decide (isLevel ev.level)).map entryOf

/-- The action is a `LogEvent` call or a step of the writer. -/
def Action.isEmitOrWrite : Action → Bool
  | .logEvent _ => true
  | .writer => true
  | _ => false

/-- The events of the `LogEvent` calls among `acts`, in call order. -/
def admitted : List Action → List LeveledLogger
  | [] => []
  | .logEvent v :: rest =>
    match buildEvent v with
    | some ev => ev :: admitted rest
    | none => admitted rest
  | _ :: rest => admitted rest

/-- The logger is Running, in a well-formed state, and its zap logger has the
level `GlobalLogLevelSetter` gives under the globals `g`. -/
def Serving (g : Globals) (w : World) : Prop :=
  WellFormed w ∧ w.m.loggerInitialized = true ∧
    ∃ z, w.m.zapLogger = some z ∧ z.level = GlobalLogLevelSetter g

end util

namespace util

/-- Number of `Close` calls the file of `m.handle` has received. -/
def closeCount (m : MetricsLogger) : Nat :=
  match m.handle with
  | none => 0
  | some f => f.closeCalls

/-- The file of `m.handle` is closed. -/
def sinkClosed (m : MetricsLogger) : Bool :=
  match m.handle with
  | none => false
  | some f => f.closed

/-- The calls the zap logger has received so far. -/
def zapCalls (m : MetricsLogger) : List (Int × String) :=
  match m.zapLogger with
  | none => []
  | some z => z.calls

end util

namespace util

/-- A logger just initialised (threshold INFO) that has admitted the events
(ERROR, "a"), (DEBUG, "b") and (WARN, "c"). -/
def threeQueued : World :=
  runningWith {} { lines := [] }
    [{ level := 1, logMsg := "a" }, { level := 4, logMsg := "b" }, { level := 2, logMsg := "c" }]

end util

/-! ## The metrics endpoint -/

/-- The method `Error()` of an error value. -/
def GoError.Error : GoError → String
  | .pkgVar _ msg => msg
  | .wrapped msg _ => msg
  | .joined first second => first.Error ++ "\n" ++ second.Error
  | .other msg => msg

/-- The error wraps at most one error at each level: there is no
`errors.Join` in it. -/
def GoError.isChain : GoError → Bool
  | .wrapped _ inner => inner.isChain
  | .joined _ _ => false
  | _ => true

namespace errors

/-- The function `errors.Is(err, target)`: `err` or an error it wraps is `target`. -/
def Is : GoError → GoError → Bool
  | .wrapped msg inner, target => decide (GoError.wrapped msg inner = target) || Is inner target
  | .joined first second, target =>
    decide (GoError.joined first second = target) || Is first target || Is second target
  | .pkgVar name msg, target => decide (GoError.pkgVar name msg = target)
  | .other msg, target => decide (GoError.other msg = target)

end errors

namespace context

def Canceled : GoError := .pkgVar "context.Canceled" "context canceled"

end context

namespace strconv

/-- The value of a non-empty string of decimal digits read after `acc`;
`none` when a character is not a digit. -/
def digitsValue : List Char → Nat → Option Nat
  | [], acc => some acc
  | ch :: rest, acc =>
    if '0' ≤ ch ∧ ch ≤ '9' then digitsValue rest (acc * 10 + (ch.toNat - '0'.toNat))
    else none

/-- The function `strconv.Atoi` for a 64-bit `int`: an optional sign, then one or more
decimal digits, the value lying in the range of `int`. -/
def Atoi (s : String) : Except GoError Int :=
  let signed : Bool × List Char :=
    match s.data with
    | '-' :: rest => (true, rest)
    | '+' :: rest => (false, rest)
    | cs => (false, cs)
  match signed.2 with
  | [] => .error (.other ("strconv.Atoi: parsing \"" ++ s ++ "\": invalid syntax"))
  | ds =>
    match digitsValue ds 0 with
    | none => .error (.other ("strconv.Atoi: parsing \"" ++ s ++ "\": invalid syntax"))
    | some n =>
      let v : Int := if signed.1 then -(n : Int) else (n : Int)
      if v < -(2 : Int) ^ 63 ∨ (2 : Int) ^ 63 - 1 < v then
        .error (.other ("strconv.Atoi: parsing \"" ++ s ++ "\": value out of range"))
      else .ok v

end strconv

namespace domain

/-- A stored sample; `CPULoad` is the bit pattern of the `float64`. -/
structure Metric where
  Timestamp : Int
  CPULoad : Nat
  Concurrency : Int
  deriving DecidableEq, Repr

/-- The `CPULoad` is a finite number: the exponent bits of the `float64` are
not all ones (neither NaN nor an infinity). -/
def Metric.cpuLoadFinite (m : Metric) : Bool := (m.CPULoad / 2 ^ 52) % 2048 != 2047

/-- The `CPULoad` is NaN: exponent bits all ones and a non-zero fraction. -/
def Metric.cpuLoadNaN (m : Metric) : Bool :=
  (m.CPULoad / 2 ^ 52) % 2048 == 2047 && m.CPULoad % 2 ^ 52 != 0

end domain

namespace http

def MethodGet : String := "GET"
def StatusOK : Int := 200
def StatusBadRequest : Int := 400
def StatusUnauthorized : Int := 401
def StatusNotFound : Int := 404
def StatusMethodNotAllowed : Int := 405
def StatusRequestTimeout : Int := 408

end http

namespace endpoints

def API_SUCCESS : Int := 303000
def API_FAILURE : Int := 303001
def API_UNAUTHORIZED : Int := 303002

def METRICS_NOT_AVAILABLE : Int := 101
def INVALID_REQUEST_BODY : Int := 102
def INVALID_PARAMETERS : Int := 103
def INVALID_TIME_RANGE : Int := 104
def REQUEST_CANCELLED : Int := 105

def ErrNoMetricsAvailable : GoError :=
  .pkgVar "ErrNoMetricsAvailable" "no metrics available for the specified criteria"
def ErrInvalidRequestBody : GoError :=
  .pkgVar "ErrInvalidRequestBody" "invalid request body format or missing fields"
def ErrInvalidParameters : GoError :=
  .pkgVar "ErrInvalidParameters" "invalid limit or offset parameter; must be integers"
def ErrInvalidTimeRange : GoError :=
  .pkgVar "ErrInvalidTimeRange" "start timestamp cannot be after end timestamp"
def ErrRequestCancelled : GoError :=
  .pkgVar "ErrRequestCancelled" "request cancelled by client or server timeout"

def GetErrorCode (err : Option GoError) : Int :=
  match err with
  | none => API_SUCCESS
  | some err =>
    if errors.Is err ErrNoMetricsAvailable then METRICS_NOT_AVAILABLE
    else if errors.Is err ErrInvalidRequestBody then INVALID_REQUEST_BODY
    else if errors.Is err ErrInvalidParameters then INVALID_PARAMETERS
    else if errors.Is err ErrInvalidTimeRange then INVALID_TIME_RANGE
    else if errors.Is err ErrRequestCancelled then REQUEST_CANCELLED
    else API_FAILURE

structure MetricsRequest where
  Start : Int := 0
  End : Int := 0
  deriving DecidableEq, Repr

/-- The JSON document of a response; `Value` is nil or the list of metrics. -/
structure APIResponse where
  Status : Bool := false
  Value : Option (List domain.Metric) := none
  Error : String := ""
  ErrorCode : Int := 0
  deriving DecidableEq, Repr

end endpoints

namespace json

/-- The call `json.Marshal(res)`: the JSON document, or `none` when the
encoding fails, which it does for a `float64` that is NaN or an infinity.
The documents of the error responses carry the `Value` of the handler's
`Response`, which nothing assigns; their encoding does not fail. -/
def Marshal (res : endpoints.APIResponse) : Option endpoints.APIResponse :=
  match res.Value with
  | none => some res
  | some metrics => if metrics.all fun m => m.cpuLoadFinite then some res else none

end json

namespace endpoints

/-- An `http.ResponseWriter` as a recorder: the header map, the status code
(200 unless `WriteHeader` set another one before the first write), whether
the header was written, and the JSON documents written to the body. -/
structure ResponseWriter where
  header : List (String × String) := []
  Code : Int := 200
  wroteHeader : Bool := false
  Body : List APIResponse := []
  deriving DecidableEq, Repr

/-- The call `w.Header().Set(key, value)`. -/
def ResponseWriter.headerSet (w : ResponseWriter) (key value : String) : ResponseWriter :=
  { w with header := (key, value) :: w.header.filter fun kv => kv.1 ≠ key }

/-- The call `w.WriteHeader(code)`. -/
def ResponseWriter.WriteHeader (w : ResponseWriter) (code : Int) : ResponseWriter :=
  if w.wroteHeader then w else { w with Code := code, wroteHeader := true }

/-- The call `w.Write(json)` for the encoding of `res`. -/
def ResponseWriter.Write (w : ResponseWriter) (res : APIResponse) : ResponseWriter :=
  let w1 := if w.wroteHeader then w else { w with Code := http.StatusOK, wroteHeader := true }
  { w1 with Body := w1.Body ++ [res] }

/-- The call `w.Write(errJson)` after `errJson, _ := json.Marshal(res)`, the
error of which is dropped: with `none`, the nil slice left by a failed
encoding, the header goes out (status 200 unless set before) and no byte is
written to the body. -/
def ResponseWriter.WriteBytes (w : ResponseWriter) (errJson : Option APIResponse) :
    ResponseWriter :=
  match errJson with
  | some res => w.Write res
  | none => if w.wroteHeader then w else { w with Code := http.StatusOK, wroteHeader := true }

def APIResponse.WriteErrorResponse (res : APIResponse) (w : ResponseWriter) (err : GoError) :
    ResponseWriter :=
  let res1 := { res with Status := false, Error := err.Error, ErrorCode := GetErrorCode (some err) }
  ((w.headerSet "Content-Type" "application/json").headerSet "Cache-Control" "no-cache").Write res1

def APIResponse.WriteErrorResponseWithStatusCode (res : APIResponse) (w : ResponseWriter)
    (err : GoError) (StatusCode : Int) : ResponseWriter :=
  let res1 := { res with Status := false, Error := err.Error }
  let res2 :=
    if StatusCode = http.StatusUnauthorized then { res1 with ErrorCode := API_UNAUTHORIZED }
    else { res1 with ErrorCode := GetErrorCode (some err) }
  (((w.headerSet "Content-Type" "application/json").headerSet "Cache-Control"
    "no-cache").WriteHeader StatusCode).Write res2

def APIResponse.WriteResultResponse (res : APIResponse) (w : ResponseWriter)
    (result : List domain.Metric) : ResponseWriter :=
  let res1 := { res with Status := true, Value := some result, ErrorCode := GetErrorCode none }
  ((w.headerSet "Content-Type" "application/json").headerSet "Cache-Control"
    "no-cache").WriteBytes (json.Marshal res1)

/-- A request as the handler sees it: the method, the route variables of
`mux.Vars(r)`, and what decoding the body as JSON into a `MetricsRequest`
gives. -/
structure Request where
  Method : String
  vars : List (String × String)
  Body : Except GoError MetricsRequest
  deriving Repr

/-- The lookup `routeParamValue[key]`: the empty string for a missing key. -/
def Request.var (r : Request) (key : String) : String :=
  (r.vars.lookup key).getD ""

/-- The `domain.MetricStore` behind the handler, with the request's context:
the answer of `GetMetrics(r.Context(), startTime, endTime, limit, offset)`. -/
structure MetricStore where
  GetMetrics : Int → Int → Int → Int → Except GoError (List domain.Metric)

/-- The handler object: its `Response`, its logger and its store. -/
structure Metrics where
  Response : APIResponse := {}
  logger : util.World
  store : MetricStore

/-- What a call of the handler leaves: the response, the logger, and the
queries made to the store (start, end, limit, offset), in order. -/
structure Served where
  w : ResponseWriter
  logger : util.World
  queries : List (Int × Int × Int × Int) := []

/-- A call `m.logger.LogEvent(v...)` whose result is dropped, followed by the
rest of the handler. -/
def logThen (logger : util.World) (v : List GoVal) (rest : util.World → Outcome Served) :
    Outcome Served :=
  match util.LogEvent logger v with
  | .done (logger1, _) => rest logger1
  | .blocked => .blocked
  | .panic => .panic

/-- The handler `GetMetricsHandler`; `nowStart` and `nowEnd` are the readings of the two
`time.Now()` calls, in Unix seconds. -/
def Metrics.GetMetricsHandler (m : Metrics) (nowStart nowEnd : Int) (w : ResponseWriter)
    (r : Request) : Outcome Served :=
  if r.Method ≠ http.MethodGet then
    logThen m.logger
      [.int util.LOG_LEVEL_ERROR, .str "Method Not Allowed. Only GET requests are supported",
       .int http.StatusMethodNotAllowed] fun logger =>
    .done { w := m.Response.WriteErrorResponseWithStatusCode w
              (.other "method Not Allowed. Only GET requests are supported")
              http.StatusMethodNotAllowed,
            logger := logger }
  else
    match strconv.Atoi (r.var "limit") with
    | .error err =>
      logThen m.logger
        [.int util.LOG_LEVEL_ERROR, .str "While getting limit from URL. Err - ",
         .other err.Error] fun logger =>
      .done { w := m.Response.WriteErrorResponseWithStatusCode w ErrInvalidParameters
                http.StatusBadRequest,
              logger := logger }
    | .ok limit =>
      match strconv.Atoi (r.var "offset") with
      | .error err =>
        logThen m.logger
          [.int util.LOG_LEVEL_ERROR, .str "While getting offset from URL. Err - ",
           .other err.Error] fun logger =>
        .done { w := m.Response.WriteErrorResponseWithStatusCode w ErrInvalidParameters
                  http.StatusBadRequest,
                logger := logger }
      | .ok offset =>
        match r.Body with
        | .error err =>
          logThen m.logger
            [.int util.LOG_LEVEL_ERROR, .str "Occured while unmarshalling JSON Body. Err -",
             .other err.Error] fun logger =>
          .done { w := m.Response.WriteErrorResponseWithStatusCode w ErrInvalidRequestBody
                    http.StatusBadRequest,
                  logger := logger }
        | .ok reqBody =>
          let startTime := if reqBody.Start = 0 then nowStart - 24 * 3600 else reqBody.Start
          let endTime := if reqBody.End = 0 then nowEnd else reqBody.End
          if startTime > endTime then
            logThen m.logger
              [.int util.LOG_LEVEL_ERROR,
               .str "Given startTime is greater than endTime. startTime - ",
               .other (toString startTime), .str " endTime - ", .other (toString endTime)]
              fun logger =>
            .done { w := m.Response.WriteErrorResponseWithStatusCode w ErrInvalidTimeRange
                      http.StatusBadRequest,
                    logger := logger }
          else
            let limit1 := if limit ≤ 0 then 100 else limit
            let offset1 := if offset < 0 then 0 else offset
            let queries := [(startTime, endTime, limit1, offset1)]
            match m.store.GetMetrics startTime endTime limit1 offset1 with
            | .error err =>
              if err = context.Canceled then
                logThen m.logger [.int util.LOG_LEVEL_WARN, .str "Context cancelled"]
                  fun logger =>
                .done { w := m.Response.WriteErrorResponseWithStatusCode w ErrRequestCancelled
                          http.StatusRequestTimeout,
                        logger := logger, queries := queries }
              else
                logThen m.logger
                  [.int util.LOG_LEVEL_ERROR, .str "Occured while GetMetrics(). Err - ",
                   .other err.Error] fun logger =>
                .done { w := m.Response.WriteErrorResponse w err, logger := logger,
                        queries := queries }
            | .ok fetchedMetrics =>
              if fetchedMetrics.length = 0 then
                logThen m.logger [.int util.LOG_LEVEL_WARN, .str "Insufficient Metrics Data"]
                  fun logger =>
                .done { w := m.Response.WriteErrorResponseWithStatusCode w
                          ErrNoMetricsAvailable http.StatusNotFound,
                        logger := logger, queries := queries }
              else
                .done { w := m.Response.WriteResultResponse w fetchedMetrics,
                        logger := m.logger, queries := queries }

end endpoints

namespace util

/-- Every `LogEvent` call on the logger returns (with or without error). -/
def Returning (w : World) : Prop := ∀ v, ∃ w1 e, LogEvent w v = .done (w1, e)

end util

namespace util

/-- A logger just initialised whose queue holds `LOG_BUFFER_SIZE` INFO events
with message "x", the writer not having run yet. -/
def fullQueue : World :=
  runningWith {} { lines := [] }
    (List.replicate LOG_BUFFER_SIZE { level := LOG_LEVEL_INFO, logMsg := "x" })

end util

/-! ## The steps of `LogEvent` and `DeInit` taken apart

For two calls running on different threads, each call is cut at the point
where the other thread can run in between: `LogEvent` between the test of
`m.loggerInitialized` and the send, `DeInit` between `close(m.logBuffer)` and
`m.wg.Wait()`. -/

namespace util

/-- The statements of `LogEvent` up to and including the test of
`m.loggerInitialized`: the error the call returns there, or the event it goes
on to send. -/
def LogEvent_check (w : World) (v : List GoVal) : Outcome (Except GoError LeveledLogger) :=
  match buildEvent v with
  | none => .panic
  | some lobj =>
    if w.m.loggerInitialized = false then .done (.error ErrLogNotInitialized)
    else .done (.ok lobj)

/-- The statements of `LogEvent` after the test: `m.logBuffer <- lobj` and
`return nil`. -/
def LogEvent_send (w : World) (lobj : LeveledLogger) : Outcome (World × Option GoError) :=
  match chanSend w.m.logBuffer lobj with
  | .done c => .done ({ w with m := { w.m with logBuffer := some c } }, none)
  | .blocked => .blocked
  | .panic => .panic

/-- The statements of `DeInit` after its guard, up to and including
`close(m.logBuffer)`. -/
def DeInit_close (w : World) : Outcome World :=
  let m1 := { w.m with loggerInitialized := false }
  match chanClose m1.logBuffer with
  | .done c => .done { w with m := { m1 with logBuffer := some c } }
  | .blocked => .blocked
  | .panic => .panic

/-- The statements of `DeInit` after the close: `m.wg.Wait()` and
`m.handle.Close()`. -/
def DeInit_wait (w : World) : Outcome World :=
  match wgWait w with
  | .done w2 => .done { w2 with m := { w2.m with handle := w2.m.handle.map File.Close } }
  | .blocked => .blocked
  | .panic => .panic

end util

namespace endpoints

/-- The handler has answered on `w` with the status code `code` and one JSON
document whose `status` is `status` and whose `error_code` is `errorCode`. -/
def Answered (s : Served) (w : ResponseWriter) (code : Int) (status : Bool)
    (errorCode : Int) : Prop :=
  s.w.Code = code ∧
    ∃ res : APIResponse, s.w.Body = w.Body ++ [res] ∧ res.Status = status ∧
      res.ErrorCode = errorCode

/-- The start of the queried range: the `start` of the body, or 24 hours
before the reading of the clock when it is 0. -/
def effectiveStart (reqBody : MetricsRequest) (nowStart : Int) : Int :=
  if reqBody.Start = 0 then nowStart - 24 * 3600 else reqBody.Start

/-- The end of the queried range: the `end` of the body, or the reading of the
clock when it is 0. -/
def effectiveEnd (reqBody : MetricsRequest) (nowEnd : Int) : Int :=
  if reqBody.End = 0 then nowEnd else reqBody.End

end endpoints

/-! ## The SQLite store -/

namespace repository

/-- A row of the table `metrics` (`timestamp INTEGER PRIMARY KEY, cpu_load
REAL, concurrency INTEGER`): the key, and the two other columns as `rows.Scan`
meets them, `none` standing for NULL, which `Scan` cannot store into a
`float64` or an `int`. -/
structure Row where
  timestamp : Int
  cpu_load : Option Nat
  concurrency : Option Int
  deriving DecidableEq, Repr

/-- The call `rows.Scan(&m.Timestamp, &m.CPULoad, &m.Concurrency)`: the metric
read from the row, or `none` when `Scan` returns an error. -/
def Row.Scan (r : Row) : Option domain.Metric :=
  match r.cpu_load, r.concurrency with
  | some cpu, some n => some { Timestamp := r.timestamp, CPULoad := cpu, Concurrency := n }
  | _, _ => none

/-- The row SQLite keeps for the values `StoreMetric` binds: a NaN bound to a
REAL column is stored as NULL. -/
def rowOf (metric : domain.Metric) : Row :=
  { timestamp := metric.Timestamp,
    cpu_load := if metric.cpuLoadNaN then none else some metric.CPULoad,
    concurrency := some metric.Concurrency }

/-- What SQLite returns for
`SELECT ... FROM metrics WHERE timestamp >= ? AND timestamp <= ? ORDER BY
timestamp ASC LIMIT ? OFFSET ?` on the table content `rows`: the rows in the
range, in ascending timestamp order, without the first `offset` of them, and
at most `limit` of the rest, a negative `limit` meaning no bound. -/
def sqlSelect (rows : List Row) (startTime endTime limit offset : Int) : List Row :=
  let inRange := rows.filter fun r => decide (startTime ≤ r.timestamp ∧ r.timestamp ≤ endTime)
  let ordered := inRange.insertionSort fun a b => a.timestamp ≤ b.timestamp
  let skipped := ordered.drop offset.toNat
  if limit < 0 then skipped else skipped.take limit.toNat

/-- The store: `rows` is the content of the table `metrics`. -/
structure SQLiteStore where
  rows : List Row
  deriving Repr

/-- The method `SQLiteStore.StoreMetric` with a live context: the insert fails
when the table holds a row with the same timestamp, the primary key. -/
def SQLiteStore.StoreMetric (s : SQLiteStore) (metric : domain.Metric) :
    SQLiteStore × Option GoError :=
  if s.rows.any fun r => decide (r.timestamp = metric.Timestamp) then
    (s, some (.wrapped "error inserting metric: UNIQUE constraint failed: metrics.timestamp"
      (.other "UNIQUE constraint failed: metrics.timestamp")))
  else ({ rows := s.rows ++ [rowOf metric] }, none)

/-- The method `SQLiteStore.GetMetrics`; `queryErr` is the error `s.db.QueryContext`
returns, if any (for a cancelled context, `ctx.Err()`).  The loop over the
rows of the answer skips a row whose `Scan` fails. -/
def SQLiteStore.GetMetrics (s : SQLiteStore) (queryErr : Option GoError)
    (startTime endTime limit offset : Int) : Except GoError (List domain.Metric) :=
  let limit1 := if limit ≤ 0 then -1 else limit
  let offset1 := if offset < 0 then 0 else offset
  match queryErr with
  | some err => .error (.wrapped ("error querying database: " ++ err.Error) err)
  | none => .ok ((sqlSelect s.rows startTime endTime limit1 offset1).filterMap Row.Scan)

/-- The metrics `StoreMetric` has put into an empty table, one call per
element of `metrics`, failed inserts leaving the table as it is. -/
def storeAll (metrics : List domain.Metric) : SQLiteStore :=
  metrics.foldl (fun s metric => (s.StoreMetric metric).1) { rows := [] }

/-- The store as the handler sees it, for a request whose context makes
`QueryContext` answer with `queryErr`. -/
def SQLiteStore.asStore (s : SQLiteStore) (queryErr : Option GoError) : endpoints.MetricStore :=
  { GetMetrics := fun startTime endTime limit offset =>
      s.GetMetrics queryErr startTime endTime limit offset }

end repository

namespace endpoints

/-- A GET request with the route variables `limit` and `offset` and the given
result of decoding its body. -/
def getRequest (limit offset : String) (body : Except GoError MetricsRequest) : Request :=
  { Method := "GET", vars := [("limit", limit), ("offset", offset)], Body := body }

/-- A handler with the zero value logger `&util.MetricsLogger{}`, as in the
tests, over a store that answers every query with `answer`. -/
def handlerOver (answer : Except GoError (List domain.Metric)) : Metrics :=
  { logger := {}, store := { GetMetrics := fun _ _ _ _ => answer } }

end endpoints

/-! ## Auxiliary facts -/

theorem sliceInner_brackets (s : String) : sliceInner ("[" ++ s ++ "]") = some s := by
  obtain ⟨cs⟩ := s
  have h : ("[" ++ (String.mk cs) ++ "]") = String.mk ('[' :: (cs ++ [']'])) := by
    apply String.ext
    simp [String.data_append]
  rw [h]
  unfold sliceInner
  have hsz : ¬ (String.mk ('[' :: (cs ++ [']']))).utf8ByteSize < 2 := by
    simp only [String.utf8ByteSize_mk, String.utf8Len_cons, String.utf8Len_append,
      String.utf8Len_nil]
    have h1 : 0 < Char.utf8Size '[' := Char.utf8Size_pos _
    have h2 : 0 < Char.utf8Size ']' := Char.utf8Size_pos _
    omega
  rw [if_neg hsz]
  simp

namespace util

theorem zapCall_done (m : MetricsLogger) (lvl : Int) (msg : String)
    (h : m.zapLogger.isSome = true) :
    ∃ m1, zapCall m lvl msg = .done m1 ∧ m1.logBuffer = m.logBuffer ∧ m1.wg = m.wg ∧
      m1.loggerInitialized = m.loggerInitialized ∧ m1.zapLogger.isSome = true ∧
      m1.handle.isSome = m.handle.isSome := by
  unfold zapCall
  cases hz : m.zapLogger with
  | none => simp [hz] at h
  | some z =>
    by_cases hl : z.level ≤ lvl
    · simp [hl]
    · simp [hl]

theorem logWritterBody_done (m : MetricsLogger) (logdata : LeveledLogger)
    (h : m.zapLogger.isSome = true) :
    ∃ m1, logWritterBody m logdata = .done m1 ∧ m1.logBuffer = m.logBuffer ∧ m1.wg = m.wg ∧
      m1.loggerInitialized = m.loggerInitialized ∧ m1.zapLogger.isSome = true ∧
      m1.handle.isSome = m.handle.isSome := by
  unfold logWritterBody
  split_ifs
  · exact zapCall_done m _ _ h
  · exact zapCall_done m _ _ h
  · exact zapCall_done m _ _ h
  · exact zapCall_done m _ _ h
  · exact ⟨m, rfl, rfl, rfl, rfl, h, rfl⟩

theorem logWritterLoop_done (q : List LeveledLogger) : ∀ (m : MetricsLogger),
    m.zapLogger.isSome = true →
    ∃ m1, logWritterLoop m q = .done m1 ∧ m1.logBuffer = m.logBuffer ∧ m1.wg = m.wg ∧
      m1.loggerInitialized = m.loggerInitialized ∧ m1.zapLogger.isSome = true ∧
      m1.handle.isSome = m.handle.isSome := by
  induction q with
  | nil => intro m h; exact ⟨m, rfl, rfl, rfl, rfl, h, rfl⟩
  | cons x rest ih =>
    intro m h
    obtain ⟨m1, hb, h1, h2, h3, h4, h5⟩ := logWritterBody_done m x h
    obtain ⟨m2, hl, g1, g2, g3, g4, g5⟩ := ih m1 h4
    refine ⟨m2, ?_, g1.trans h1, g2.trans h2, g3.trans h3, g4, g5.trans h5⟩
    simp [logWritterLoop, hb, hl]

theorem buildEvent_total (v : List GoVal) : ∃ ev, buildEvent v = some ev := by
  unfold buildEvent
  split
  · exact ⟨_, rfl⟩
  · exact ⟨_, rfl⟩
  · rename_i a rest _
    cases a with
    | int n =>
      by_cases hn : n = LOG_LEVEL_ERROR ∨ n = LOG_LEVEL_WARN ∨ n = LOG_LEVEL_INFO ∨ n = LOG_LEVEL_DEBUG
      · simp [hn, fmt.SprintfSlice, sliceInner_brackets]
      · simp [hn, fmt.SprintfSlice, sliceInner_brackets]
    | str s => simp [fmt.SprintfSlice, sliceInner_brackets]
    | other r => simp [fmt.SprintfSlice, sliceInner_brackets]

end util

namespace util

theorem wellFormed_zero : WellFormed {} := by
  refine ⟨?_, ?_, ?_⟩ <;> simp

theorem Init_error (g : Globals) (OpenFile : String → Bool → Except GoError File)
    (w : World) (logFileName : String) (rewrite : Bool) (err : GoError)
    (h : OpenFile (g.LOG_FOLDER_NAME_WITH_PATH ++ "/" ++ logFileName) rewrite = .error err) :
    Init g OpenFile w logFileName rewrite =
      ({ m := { w.m with wg := some 0,
                         logBuffer := some { buf := [], cap := LOG_BUFFER_SIZE, closed := false },
                         handle := none },
         writer := false }, some err) := by
  simp only [Init, h]

theorem Init_ok (g : Globals) (OpenFile : String → Bool → Except GoError File)
    (w : World) (logFileName : String) (rewrite : Bool) (f : File)
    (h : OpenFile (g.LOG_FOLDER_NAME_WITH_PATH ++ "/" ++ logFileName) rewrite = .ok f) :
    Init g OpenFile w logFileName rewrite =
      ({ m := { logBuffer := some { buf := [], cap := LOG_BUFFER_SIZE, closed := false },
                handle := some f, wg := some 1, loggerInitialized := true,
                zapLogger := some { level := GlobalLogLevelSetter g } },
         writer := true }, none) := by
  simp only [Init, h, zapLoggerInit, Option.map]

theorem wellFormed_Init (g : Globals) (OpenFile : String → Bool → Except GoError File)
    (w : World) (logFileName : String) (rewrite : Bool) (hw : WellFormed w)
    (hwr : w.writer = false) :
    WellFormed (Init g OpenFile w logFileName rewrite).1 := by
  have hflag : w.m.loggerInitialized = false := by
    cases hf : w.m.loggerInitialized with
    | false => rfl
    | true => have := (hw.1 hf).1; simp [hwr] at this
  cases hO : OpenFile (g.LOG_FOLDER_NAME_WITH_PATH ++ "/" ++ logFileName) rewrite with
  | error err =>
    rw [Init_error g OpenFile w logFileName rewrite err hO]
    refine ⟨?_, ?_, ?_⟩
    · intro h; simp [hflag] at h
    · intro _; rfl
    · intro c hc
      simp at hc
      subst hc
      simp
  | ok f =>
    rw [Init_ok g OpenFile w logFileName rewrite f hO]
    refine ⟨?_, ?_, ?_⟩
    · intro _; simp
    · intro h; simp at h
    · intro c hc
      simp at hc
      subst hc
      simp

theorem LogEvent_notRunning (w : World) (v : List GoVal)
    (h : w.m.loggerInitialized = false) :
    LogEvent w v = .done (w, some ErrLogNotInitialized) := by
  obtain ⟨ev, hev⟩ := buildEvent_total v
  simp [LogEvent, hev, h]

theorem LogEvent_room (w : World) (v : List GoVal) (c : Chan) (ev : LeveledLogger)
    (h : w.m.loggerInitialized = true) (hc : w.m.logBuffer = some c)
    (hopen : c.closed = false) (hroom : c.buf.length < c.cap) (hev : buildEvent v = some ev) :
    LogEvent w v =
      .done ({ w with m := { w.m with logBuffer := some { c with buf := c.buf ++ [ev] } } },
        none) := by
  simp [LogEvent, hev, h, hc, chanSend, hopen, hroom]

theorem LogEvent_full (w : World) (v : List GoVal) (c : Chan)
    (h : w.m.loggerInitialized = true) (hc : w.m.logBuffer = some c)
    (hopen : c.closed = false) (hfull : ¬ c.buf.length < c.cap) :
    LogEvent w v = .blocked := by
  obtain ⟨ev, hev⟩ := buildEvent_total v
  simp [LogEvent, hev, h, hc, chanSend, hopen, hfull]

theorem wellFormed_LogEvent (w w1 : World) (v : List GoVal) (e : Option GoError)
    (hw : WellFormed w) (h : LogEvent w v = .done (w1, e)) : WellFormed w1 := by
  cases hf : w.m.loggerInitialized with
  | false =>
    rw [LogEvent_notRunning w v hf] at h
    simp at h
    rw [← h.1]; exact hw
  | true =>
    obtain ⟨hwr, hwg, hz, hh, c, hc, hopen⟩ := hw.1 hf
    obtain ⟨ev, hev⟩ := buildEvent_total v
    by_cases hroom : c.buf.length < c.cap
    · rw [LogEvent_room w v c ev hf hc hopen hroom hev] at h
      simp at h
      obtain ⟨h1, _⟩ := h
      subst h1
      refine ⟨?_, ?_, ?_⟩
      · intro _; exact ⟨hwr, hwg, hz, hh, _, rfl, hopen⟩
      · intro h2; simp [hf] at h2
      · intro c1 hc1
        simp at hc1
        subst hc1
        have := hw.2.2 c hc
        simp
        omega
    · rw [LogEvent_full w v c hf hc hopen hroom] at h
      simp at h

end util

namespace util

theorem writerStep_cons (w : World) (c : Chan) (x : LeveledLogger) (rest : List LeveledLogger)
    (hw : WellFormed w) (hf : w.m.loggerInitialized = true) (hc : w.m.logBuffer = some c)
    (hbuf : c.buf = x :: rest) :
    ∃ m1, logWritterBody { w.m with logBuffer := some { c with buf := rest } } x = .done m1 ∧
      writerStep w = .done { w with m := m1 } ∧
      m1.logBuffer = some { c with buf := rest } ∧ m1.wg = w.m.wg ∧
      m1.loggerInitialized = true ∧ m1.zapLogger.isSome = true ∧ m1.handle.isSome = true := by
  obtain ⟨hwr, hwg, hz, hh, c1, hc1, hopen⟩ := hw.1 hf
  obtain ⟨m1, hb, h1, h2, h3, h4, h5⟩ :=
    logWritterBody_done { w.m with logBuffer := some { c with buf := rest } } x hz
  refine ⟨m1, hb, ?_, h1, h2, h3.trans hf, h4, h5.trans hh⟩
  simp [writerStep, hwr, hc, hbuf, hb]

theorem writerStep_empty (w : World) (c : Chan)
    (hw : WellFormed w) (hf : w.m.loggerInitialized = true) (hc : w.m.logBuffer = some c)
    (hbuf : c.buf = []) : writerStep w = .blocked := by
  obtain ⟨hwr, hwg, hz, hh, c1, hc1, hopen⟩ := hw.1 hf
  rw [hc] at hc1
  simp at hc1
  subst hc1
  simp [writerStep, hwr, hc, hbuf, hopen]

theorem writerStep_notRunning (w : World) (hw : WellFormed w)
    (hf : w.m.loggerInitialized = false) : writerStep w = .blocked := by
  simp [writerStep, hw.2.1 hf]

theorem wellFormed_writerStep (w w1 : World) (hw : WellFormed w)
    (h : writerStep w = .done w1) : WellFormed w1 := by
  cases hf : w.m.loggerInitialized with
  | false => rw [writerStep_notRunning w hw hf] at h; simp at h
  | true =>
    obtain ⟨hwr, hwg, hz, hh, c, hc, hopen⟩ := hw.1 hf
    cases hbuf : c.buf with
    | nil => rw [writerStep_empty w c hw hf hc hbuf] at h; simp at h
    | cons x rest =>
      obtain ⟨m1, _, hs, h1, h2, h3, h4, h5⟩ := writerStep_cons w c x rest hw hf hc hbuf
      rw [hs] at h
      simp at h
      subst h
      refine ⟨?_, ?_, ?_⟩
      · intro _
        exact ⟨hwr, h2.trans hwg, h4, h5, _, h1, hopen⟩
      · intro h6; simp [h3] at h6
      · intro c1 hc1
        simp [h1] at hc1
        subst hc1
        have := hw.2.2 c hc
        simp [hbuf] at this ⊢
        omega

theorem DeInit_notRunning (w : World) (hf : w.m.loggerInitialized = false) :
    DeInit w = .done w := by
  simp [DeInit, hf]

theorem DeInit_running (w : World) (hw : WellFormed w) (hf : w.m.loggerInitialized = true) :
    ∃ c m1, w.m.logBuffer = some c ∧ c.closed = false ∧
      logWritterLoop { w.m with loggerInitialized := false,
                                logBuffer := some { c with closed := true, buf := [] } } c.buf
        = .done m1 ∧
      m1.logBuffer = some { c with closed := true, buf := [] } ∧
      m1.loggerInitialized = false ∧ m1.zapLogger.isSome = true ∧ m1.handle.isSome = true ∧
      DeInit w =
        .done { m := { m1 with wg := some 0, handle := m1.handle.map File.Close },
                writer := false } := by
  obtain ⟨hwr, hwg, hz, hh, c, hc, hopen⟩ := hw.1 hf
  have hex := logWritterLoop_done c.buf
    ({ w.m with loggerInitialized := false,
                logBuffer := some { c with closed := true, buf := [] } } : MetricsLogger) hz
  obtain ⟨m1, hl, h1, h2, h3, h4, h5⟩ := hex
  refine ⟨c, m1, hc, hopen, hl, h1, h3, h4, h5.trans hh, ?_⟩
  have hwg1 : m1.wg = some 1 := h2.trans hwg
  simp [DeInit, hf, hc, chanClose, hopen, wgWait, hwr, hl, wgDone, hwg1]

theorem wellFormed_DeInit (w w1 : World) (hw : WellFormed w)
    (h : DeInit w = .done w1) : WellFormed w1 := by
  cases hf : w.m.loggerInitialized with
  | false =>
    rw [DeInit_notRunning w hf] at h
    simp at h
    rw [← h]; exact hw
  | true =>
    obtain ⟨c, m1, hc, _, _, h1, h3, _, _, hd⟩ := DeInit_running w hw hf
    rw [hd] at h
    simp at h
    subst h
    refine ⟨?_, ?_, ?_⟩
    · intro h6; simp [h3] at h6
    · intro _; rfl
    · intro c1 hc1
      simp [h1] at hc1
      subst hc1
      have := hw.2.2 c hc
      simp
      exact this.1

theorem wellFormed_step (w w1 : World) (a : Action) (hw : WellFormed w)
    (h : step w a = .done w1) : WellFormed w1 := by
  cases a with
  | init g opened logFileName rewrite =>
    simp only [step] at h
    by_cases hwr : w.writer = false
    · rw [if_pos hwr] at h
      simp at h
      rw [← h]
      exact wellFormed_Init g _ w logFileName rewrite hw hwr
    · rw [if_neg hwr] at h
      simp at h
  | logEvent v =>
    simp only [step] at h
    cases hl : LogEvent w v with
    | done p =>
      obtain ⟨w2, e⟩ := p
      rw [hl] at h
      simp at h
      subst h
      exact wellFormed_LogEvent w w2 v e hw hl
    | blocked => rw [hl] at h; simp at h
    | panic => rw [hl] at h; simp at h
  | writer => exact wellFormed_writerStep w w1 hw h
  | deInit => exact wellFormed_DeInit w w1 hw h

theorem wellFormed_run (acts : List Action) : ∀ (w w1 : World), WellFormed w →
    run w acts = .done w1 → WellFormed w1 := by
  induction acts with
  | nil =>
    intro w w1 hw h
    simp [run] at h
    rw [← h]; exact hw
  | cons a rest ih =>
    intro w w1 hw h
    simp only [run] at h
    cases hs : step w a with
    | done w2 =>
      rw [hs] at h
      exact ih w2 w1 (wellFormed_step w w2 a hw hs) h
    | blocked => rw [hs] at h; simp at h
    | panic => rw [hs] at h; simp at h

theorem wellFormed_of_reachable (w : World) (h : Reachable w) : WellFormed w := by
  obtain ⟨acts, hr⟩ := h
  exact wellFormed_run acts {} w wellFormed_zero hr

end util

namespace util

theorem freshRunning_reachable : Reachable freshRunning :=
  ⟨[.init {} (.ok { lines := [] }) "webService.log" false], rfl⟩

theorem buildEvent_single (a : GoVal) :
    buildEvent [a] = some { level := LOG_LEVEL_INFO, logMsg := fmt.Sprint a } := rfl

theorem buildEvent_level (n : Int) (b : GoVal) (rest : List GoVal)
    (hn : n = LOG_LEVEL_ERROR ∨ n = LOG_LEVEL_WARN ∨ n = LOG_LEVEL_INFO ∨ n = LOG_LEVEL_DEBUG) :
    buildEvent (.int n :: b :: rest) = some { level := n, logMsg := joinArgs (b :: rest) } := by
  simp [buildEvent, hn, fmt.SprintfSlice, sliceInner_brackets, joinArgs]

theorem buildEvent_fallback (a b : GoVal) (rest : List GoVal)
    (ha : ∀ n, a = .int n →
      ¬ (n = LOG_LEVEL_ERROR ∨ n = LOG_LEVEL_WARN ∨ n = LOG_LEVEL_INFO ∨ n = LOG_LEVEL_DEBUG)) :
    buildEvent (a :: b :: rest) =
      some { level := LOG_LEVEL_INFO, logMsg := joinArgs (a :: b :: rest) } := by
  cases a with
  | int n =>
    have := ha n rfl
    simp [buildEvent, this, fmt.SprintfSlice, sliceInner_brackets, joinArgs]
  | str s => simp [buildEvent, fmt.SprintfSlice, sliceInner_brackets, joinArgs]
  | other r => simp [buildEvent, fmt.SprintfSlice, sliceInner_brackets, joinArgs]

end util

/-! ## The emit contract -/

namespace util

/-- C1: `LogEvent` returns `ErrLogNotInitialized` exactly when the logger is not
in the Running state, and then the logger is left as it was and nothing is
enqueued.  In the Running state no error is returned: the call returns nil
with exactly one event, the one built from the arguments, appended at the
tail of the queue; when the queue is full the call is suspended at the send
and returns in that way once the writer has taken one event. -/
theorem C1_LogEvent_error_iff_not_running (w : World) (v : List GoVal) (hw : Reachable w) :
    ((∃ w1, LogEvent w v = .done (w1, some ErrLogNotInitialized)) ↔ ¬ Running w) ∧
    (¬ Running w → LogEvent w v = .done (w, some ErrLogNotInitialized)) ∧
    (Running w → ∃ ev c, buildEvent v = some ev ∧ w.m.logBuffer = some c ∧
      (c.buf.length < c.cap → LogEvent w v = .done (enqueue w c ev, none) ∧
        queue (enqueue w c ev) = queue w ++ [ev]) ∧
      (¬ c.buf.length < c.cap → LogEvent w v = .blocked ∧
        ∃ w1 c1, writerStep w = .done w1 ∧ w1.m.logBuffer = some c1 ∧
          LogEvent w1 v = .done (enqueue w1 c1 ev, none) ∧
          queue (enqueue w1 c1 ev) = queue w1 ++ [ev])) := by
  have hwf := wellFormed_of_reachable w hw
  have hrun : Running w → ∃ ev c, buildEvent v = some ev ∧ w.m.logBuffer = some c ∧
      (c.buf.length < c.cap → LogEvent w v = .done (enqueue w c ev, none) ∧
        queue (enqueue w c ev) = queue w ++ [ev]) ∧
      (¬ c.buf.length < c.cap → LogEvent w v = .blocked ∧
        ∃ w1 c1, writerStep w = .done w1 ∧ w1.m.logBuffer = some c1 ∧
          LogEvent w1 v = .done (enqueue w1 c1 ev, none) ∧
          queue (enqueue w1 c1 ev) = queue w1 ++ [ev]) := by
    intro hf
    obtain ⟨hwr, hwg, hz, hh, c, hc, hopen⟩ := hwf.1 hf
    obtain ⟨ev, hev⟩ := buildEvent_total v
    refine ⟨ev, c, hev, hc, ?_, ?_⟩
    · intro hroom
      exact ⟨LogEvent_room w v c ev hf hc hopen hroom hev, by simp [queue, enqueue, hc]⟩
    · intro hfull
      refine ⟨LogEvent_full w v c hf hc hopen hfull, ?_⟩
      have hcap := hwf.2.2 c hc
      cases hbuf : c.buf with
      | nil => simp [hbuf, hcap.1, LOG_BUFFER_SIZE] at hfull
      | cons x rest =>
        obtain ⟨m1, _, hs, h1, h2, h3, h4, h5⟩ := writerStep_cons w c x rest hwf hf hc hbuf
        have hroom1 : rest.length < c.cap := by
          have := hcap.2
          simp [hbuf] at this
          omega
        refine ⟨{ w with m := m1 }, { c with buf := rest }, hs, h1, ?_, ?_⟩
        · exact LogEvent_room { w with m := m1 } v { c with buf := rest } ev h3 h1 hopen
            hroom1 hev
        · simp [queue, enqueue, h1]
  refine ⟨⟨?_, ?_⟩, ?_, hrun⟩
  · rintro ⟨w1, h1⟩ hf
    obtain ⟨ev, c, hev, hc, hroom, hfull⟩ := hrun hf
    by_cases hr : c.buf.length < c.cap
    · rw [(hroom hr).1] at h1; simp at h1
    · rw [(hfull hr).1] at h1; simp at h1
  · intro hf
    exact ⟨w, LogEvent_notRunning w v (by simpa [Running] using hf)⟩
  · intro hf
    exact LogEvent_notRunning w v (by simpa [Running] using hf)

/-- C1, at a logger just initialised and the call
`LogEvent(LOG_LEVEL_ERROR, "a")`. -/
theorem C1_LogEvent_error_iff_not_running_witness :
    Reachable freshRunning ∧ Running freshRunning ∧
    ∃ ev c, buildEvent [.int 1, .str "a"] = some ev ∧ freshRunning.m.logBuffer = some c ∧
      LogEvent freshRunning [.int 1, .str "a"] = .done (enqueue freshRunning c ev, none) :=
  ⟨freshRunning_reachable, rfl,
    match (C1_LogEvent_error_iff_not_running freshRunning [.int 1, .str "a"]
      freshRunning_reachable).2.2 rfl with
    | ⟨ev, c, hev, hc, hroom, _⟩ =>
      ⟨ev, c, hev, hc, (hroom (by
        have h : freshRunning.m.logBuffer
            = some { buf := [], cap := LOG_BUFFER_SIZE, closed := false } := rfl
        rw [h] at hc
        simp at hc
        subst hc
        simp [LOG_BUFFER_SIZE])).1⟩⟩

/-- C2: for a non-empty argument list, a single argument gives an INFO event
with that argument as message; two or more arguments whose first is an int
equal to one of the four levels give an event of that level whose message is
made of the remaining arguments only; in every other case the event is INFO
and its message is made of the whole argument list, the first argument
included.  The event is the one `LogEvent` puts into the queue. -/
theorem C2_LogEvent_level_and_message (w : World) (c : Chan)
    (hrun : w.m.loggerInitialized = true) (hc : w.m.logBuffer = some c)
    (hopen : c.closed = false) (hroom : c.buf.length < c.cap) :
    (∀ a, LogEvent w [a] =
      .done (enqueue w c { level := LOG_LEVEL_INFO, logMsg := fmt.Sprint a }, none)) ∧
    (∀ n b rest,
      n = LOG_LEVEL_ERROR ∨ n = LOG_LEVEL_WARN ∨ n = LOG_LEVEL_INFO ∨ n = LOG_LEVEL_DEBUG →
      LogEvent w (.int n :: b :: rest) =
        .done (enqueue w c { level := n, logMsg := joinArgs (b :: rest) }, none)) ∧
    (∀ a b rest,
      (∀ n, a = .int n →
        ¬ (n = LOG_LEVEL_ERROR ∨ n = LOG_LEVEL_WARN ∨ n = LOG_LEVEL_INFO ∨ n = LOG_LEVEL_DEBUG)) →
      LogEvent w (a :: b :: rest) =
        .done (enqueue w c { level := LOG_LEVEL_INFO, logMsg := joinArgs (a :: b :: rest) },
          none)) := by
  refine ⟨?_, ?_, ?_⟩
  · intro a
    exact LogEvent_room w _ c _ hrun hc hopen hroom (buildEvent_single a)
  · intro n b rest hn
    exact LogEvent_room w _ c _ hrun hc hopen hroom (buildEvent_level n b rest hn)
  · intro a b rest ha
    exact LogEvent_room w _ c _ hrun hc hopen hroom (buildEvent_fallback a b rest ha)

/-- C2, at a logger just initialised: `LogEvent(7, "x")` enqueues the INFO
event with message `7 x`. -/
theorem C2_LogEvent_level_and_message_witness :
    LogEvent freshRunning [.int 7, .str "x"] =
      .done (enqueue freshRunning { buf := [], cap := LOG_BUFFER_SIZE, closed := false }
        { level := LOG_LEVEL_INFO, logMsg := joinArgs [.int 7, .str "x"] }, none) :=
  (C2_LogEvent_level_and_message freshRunning
    { buf := [], cap := LOG_BUFFER_SIZE, closed := false } rfl rfl rfl
    (by simp [LOG_BUFFER_SIZE])).2.2 (.int 7) (.str "x") []
    (by
      intro n hn
      simp at hn
      subst hn
      simp [LOG_LEVEL_ERROR, LOG_LEVEL_WARN, LOG_LEVEL_INFO, LOG_LEVEL_DEBUG])

end util

/-! ## The level filter -/

namespace util

/-- C3: with threshold `t` and event level `l` both among the four levels, and
the zap logger's level being the one `GlobalLogLevelSetter` returns for `t`,
the writer takes an event of level `l` out of the queue and a write of its
entry is issued to the file if and only if `l <= t` (`ShouldEmit`); when
`l > t` the file is left as it was.  When the write is issued and the file
takes it, the entry is the new last line. -/
theorem C3_written_iff_level_le_threshold (g : Globals) (w : World) (c : Chan)
    (z : ZapLogger) (f : File) (ev : LeveledLogger) (rest : List LeveledLogger)
    (ht : isLevel g.globalLogLevel) (hl : isLevel ev.level)
    (hwr : w.writer = true) (hc : w.m.logBuffer = some c) (hbuf : c.buf = ev :: rest)
    (hz : w.m.zapLogger = some z) (hlev : z.level = GlobalLogLevelSetter g)
    (hf : w.m.handle = some f) :
    ∃ w1 f1, writerStep w = .done w1 ∧ w1.m.handle = some f1 ∧ queue w1 = rest ∧
      (f1.attempts = f.attempts ++ [(zapLevelOf ev.level, ev.logMsg)] ↔
        ShouldEmit g.globalLogLevel ev.level = true) ∧
      (ShouldEmit g.globalLogLevel ev.level = true →
        f1 = f.Write (zapLevelOf ev.level, ev.logMsg)) ∧
      (ShouldEmit g.globalLogLevel ev.level = false → f1 = f) ∧
      (f.closed = false → f.faults.head? ≠ some true →
        (f1.lines = f.lines ++ [(zapLevelOf ev.level, ev.logMsg)] ↔
          ev.level ≤ g.globalLogLevel)) := by
  have hW : ∀ e : Int × String, (f.Write e).attempts = f.attempts ++ [e] := by
    intro e
    unfold File.Write
    split
    · rfl
    · split <;> rfl
  have hL : ∀ e : Int × String, f.closed = false → f.faults.head? ≠ some true →
      (f.Write e).lines = f.lines ++ [e] := by
    intro e h1 h2
    unfold File.Write
    rw [if_neg (by simp [h1])]
    split
    · rename_i h3; simp [h3] at h2
    · rfl
    · rfl
  rcases ht with ht | ht | ht | ht <;> rcases hl with hl | hl | hl | hl <;>
    simp [writerStep, hwr, hc, hbuf, logWritterBody, zapCall, hz, hlev, GlobalLogLevelSetter,
      ht, hl, hf, queue, ShouldEmit, zapLevelOf, hW, LOG_LEVEL_ERROR, LOG_LEVEL_WARN,
      LOG_LEVEL_INFO, LOG_LEVEL_DEBUG, zapcore.ErrorLevel, zapcore.WarnLevel,
      zapcore.InfoLevel, zapcore.DebugLevel] <;>
    exact fun h1 h2 => hL _ h1 h2

/-- C3, with threshold WARN and an ERROR event at the head of the queue: the
entry is written. -/
theorem C3_written_iff_level_le_threshold_witness :
    ∃ w1 f1,
      writerStep (runningWith { globalLogLevel := 2 } { lines := [] }
        [{ level := 1, logMsg := "a" }, { level := 3, logMsg := "b" }]) = .done w1 ∧
      w1.m.handle = some f1 ∧ queue w1 = [{ level := 3, logMsg := "b" }] ∧
      f1 = File.Write { lines := [] } (zapcore.ErrorLevel, "a") :=
  match C3_written_iff_level_le_threshold { globalLogLevel := 2 }
      (runningWith { globalLogLevel := 2 } { lines := [] }
        [{ level := 1, logMsg := "a" }, { level := 3, logMsg := "b" }])
      { buf := [{ level := 1, logMsg := "a" }, { level := 3, logMsg := "b" }],
        cap := LOG_BUFFER_SIZE, closed := false }
      { level := GlobalLogLevelSetter { globalLogLevel := 2 } } { lines := [] }
      { level := 1, logMsg := "a" } [{ level := 3, logMsg := "b" }]
      (Or.inr (Or.inl rfl)) (Or.inl rfl) rfl rfl rfl rfl rfl rfl with
  | ⟨w1, f1, h1, h2, h3, _, h5, _, _⟩ => ⟨w1, f1, h1, h2, h3, h5 (by decide)⟩

end util

/-! ## What the writer does to the sink -/

namespace util

theorem File.Write_attempts (f : File) (e : Int × String) :
    (f.Write e).attempts = f.attempts ++ [e] := by
  unfold File.Write
  split
  · rfl
  · split <;> rfl

theorem File.Write_healthy (f : File) (e : Int × String) (h1 : f.closed = false)
    (h2 : f.faults = []) :
    (f.Write e).closed = false ∧ (f.Write e).faults = [] ∧ (f.Write e).lines = f.lines ++ [e] := by
  unfold File.Write
  rw [if_neg (by simp [h1])]
  split
  · rename_i h3; simp [h2] at h3
  · rename_i h3; simp [h2] at h3
  · exact ⟨h1, h2, rfl⟩

theorem File.Write_closeCalls (f : File) (e : Int × String) :
    (f.Write e).closeCalls = f.closeCalls ∧ (f.Write e).closed = f.closed := by
  unfold File.Write
  split
  · exact ⟨rfl, rfl⟩
  · split <;> exact ⟨rfl, rfl⟩

/-- Effect of the loop body on the file and on the zap logger. -/
theorem logWritterBody_effect (g : Globals) (m : MetricsLogger) (z : ZapLogger) (f : File)
    (x : LeveledLogger) (ht : isLevel g.globalLogLevel) (hz : m.zapLogger = some z)
    (hlev : z.level = GlobalLogLevelSetter g) (hf : m.handle = some f) :
    ∃ m1 z1 f1, logWritterBody m x = .done m1 ∧ m1.zapLogger = some z1 ∧ m1.handle = some f1 ∧
      m1.logBuffer = m.logBuffer ∧ m1.wg = m.wg ∧
      m1.loggerInitialized = m.loggerInitialized ∧ z1.level = z.level ∧
      z1.calls = z.calls ++ callsOf [x] ∧
      f1.attempts = f.attempts ++ entriesOf g.globalLogLevel [x] ∧
      f1.closeCalls = f.closeCalls ∧ f1.closed = f.closed ∧
      (f.closed = false → f.faults = [] →
        f1.faults = [] ∧ f1.lines = f.lines ++ entriesOf g.globalLogLevel [x]) := by
  by_cases hx : isLevel x.level
  · rcases ht with ht | ht | ht | ht <;> rcases hx with hx | hx | hx | hx <;>
      simp [logWritterBody, zapCall, hz, hlev, GlobalLogLevelSetter, ht, hx, hf, callsOf,
        entriesOf, passes, entryOf, isLevel, ShouldEmit, zapLevelOf, File.Write_attempts,
        File.Write_closeCalls, LOG_LEVEL_ERROR, LOG_LEVEL_WARN, LOG_LEVEL_INFO,
        LOG_LEVEL_DEBUG, zapcore.ErrorLevel, zapcore.WarnLevel, zapcore.InfoLevel,
        zapcore.DebugLevel] <;>
      intro h1 h2 <;>
      have h3 := File.Write_healthy f <;>
      simp_all
  · have hx1 := hx
    simp only [isLevel, not_or] at hx1
    obtain ⟨h1, h2, h3, h4⟩ := hx1
    refine ⟨m, z, f, ?_, hz, hf, rfl, rfl, rfl, rfl, ?_, ?_, rfl, rfl, ?_⟩
    · simp [logWritterBody, h1, h2, h3, h4]
    · simp [callsOf, hx]
    · simp [entriesOf, passes, hx]
    · intro _ hfa
      simp [entriesOf, passes, hx, hfa]

end util

namespace util

theorem entriesOf_append (t : Int) (a b : List LeveledLogger) :
    entriesOf t (a ++ b) = entriesOf t a ++ entriesOf t b := by
  simp [entriesOf, List.filter_append]

theorem callsOf_append (a b : List LeveledLogger) : callsOf (a ++ b) = callsOf a ++ callsOf b := by
  simp [callsOf, List.filter_append]

theorem entriesOf_cons (t : Int) (x : LeveledLogger) (q : List LeveledLogger) :
    entriesOf t (x :: q) = entriesOf t [x] ++ entriesOf t q :=
  entriesOf_append t [x] q

theorem callsOf_cons (x : LeveledLogger) (q : List LeveledLogger) :
    callsOf (x :: q) = callsOf [x] ++ callsOf q :=
  callsOf_append [x] q

/-- Effect of the whole loop over the buffered events `q`. -/
theorem logWritterLoop_effect (g : Globals) (ht : isLevel g.globalLogLevel)
    (q : List LeveledLogger) : ∀ (m : MetricsLogger) (z : ZapLogger) (f : File),
    m.zapLogger = some z → z.level = GlobalLogLevelSetter g → m.handle = some f →
    ∃ m1 z1 f1, logWritterLoop m q = .done m1 ∧ m1.zapLogger = some z1 ∧ m1.handle = some f1 ∧
      m1.logBuffer = m.logBuffer ∧ m1.wg = m.wg ∧
      m1.loggerInitialized = m.loggerInitialized ∧ z1.level = z.level ∧
      z1.calls = z.calls ++ callsOf q ∧
      f1.attempts = f.attempts ++ entriesOf g.globalLogLevel q ∧
      f1.closeCalls = f.closeCalls ∧ f1.closed = f.closed ∧
      (f.closed = false → f.faults = [] →
        f1.faults = [] ∧ f1.lines = f.lines ++ entriesOf g.globalLogLevel q) := by
  induction q with
  | nil =>
    intro m z f hz _ hf
    refine ⟨m, z, f, rfl, hz, hf, rfl, rfl, rfl, rfl, ?_, ?_, rfl, rfl, ?_⟩
    · simp [callsOf]
    · simp [entriesOf]
    · intro _ h; simp [entriesOf, h]
  | cons x rest ih =>
    intro m z f hz hlev hf
    obtain ⟨m1, z1, f1, hb, hz1, hf1, a1, a2, a3, a4, a5, a6, a7, a8, a9⟩ :=
      logWritterBody_effect g m z f x ht hz hlev hf
    obtain ⟨m2, z2, f2, hl, hz2, hf2, b1, b2, b3, b4, b5, b6, b7, b8, b9⟩ :=
      ih m1 z1 f1 hz1 (a4.trans hlev) hf1
    refine ⟨m2, z2, f2, ?_, hz2, hf2, b1.trans a1, b2.trans a2, b3.trans a3, b4.trans a4,
      ?_, ?_, b7.trans a7, b8.trans a8, ?_⟩
    · simp [logWritterLoop, hb, hl]
    · rw [b5, a5, callsOf_cons x rest, List.append_assoc]
    · rw [b6, a6, entriesOf_cons _ x rest, List.append_assoc]
    · intro h1 h2
      obtain ⟨c1, c2⟩ := a9 h1 h2
      obtain ⟨d1, d2⟩ := b9 (a8.trans h1) c1
      refine ⟨d1, ?_⟩
      rw [d2, c2, entriesOf_cons _ x rest, List.append_assoc]

/-- Effect of one writer step of a serving logger with a non-empty queue. -/
theorem writerStep_effect (g : Globals) (w : World) (ht : isLevel g.globalLogLevel)
    (hs : Serving g w) (x : LeveledLogger) (rest : List LeveledLogger)
    (hq : queue w = x :: rest) :
    ∃ w1 z z1 f f1, writerStep w = .done w1 ∧ Serving g w1 ∧ queue w1 = rest ∧
      w.m.zapLogger = some z ∧ w1.m.zapLogger = some z1 ∧
      w.m.handle = some f ∧ w1.m.handle = some f1 ∧
      z1.calls = z.calls ++ callsOf [x] ∧
      f1.attempts = f.attempts ++ entriesOf g.globalLogLevel [x] ∧
      f1.closeCalls = f.closeCalls ∧ f1.closed = f.closed ∧
      (f.closed = false → f.faults = [] →
        f1.faults = [] ∧ f1.lines = f.lines ++ entriesOf g.globalLogLevel [x]) := by
  obtain ⟨hwf, hflag, z, hz, hlev⟩ := hs
  obtain ⟨hwr, hwg, hzs, hh, c, hc, hopen⟩ := hwf.1 hflag
  have hbuf : c.buf = x :: rest := by simpa [queue, hc] using hq
  cases hf : w.m.handle with
  | none => simp [hf] at hh
  | some f =>
    have hex := logWritterBody_effect g
      ({ w.m with logBuffer := some { c with buf := rest } } : MetricsLogger) z f x ht hz hlev hf
    obtain ⟨m1, z1, f1, hb, hz1, hf1, a1, a2, a3, a4, a5, a6, a7, a8, a9⟩ := hex
    have hstep : writerStep w = .done { w with m := m1 } := by
      simp [writerStep, hwr, hc, hbuf, hb]
    have hwf1 : WellFormed { w with m := m1 } := wellFormed_writerStep w _ hwf hstep
    refine ⟨{ w with m := m1 }, z, z1, f, f1, hstep, ⟨hwf1, a3.trans hflag, z1, hz1,
      a4.trans hlev⟩, ?_, hz, hz1, rfl, hf1, a5, a6, a7, a8, a9⟩
    simp [queue, a1]

end util

namespace util

/-- Effect of a `LogEvent` call that returns, on a serving logger. -/
theorem LogEvent_effect (g : Globals) (w w1 : World) (v : List GoVal) (e : Option GoError)
    (hs : Serving g w) (h : LogEvent w v = .done (w1, e)) :
    e = none ∧ Serving g w1 ∧ w1.m.zapLogger = w.m.zapLogger ∧ w1.m.handle = w.m.handle ∧
      ∃ ev, buildEvent v = some ev ∧ queue w1 = queue w ++ [ev] := by
  obtain ⟨hwf, hflag, z, hz, hlev⟩ := hs
  obtain ⟨hwr, hwg, hzs, hh, c, hc, hopen⟩ := hwf.1 hflag
  obtain ⟨ev, hev⟩ := buildEvent_total v
  by_cases hroom : c.buf.length < c.cap
  · have h2 := LogEvent_room w v c ev hflag hc hopen hroom hev
    have hwf1 := wellFormed_LogEvent w w1 v e hwf h
    rw [h2] at h
    simp at h
    obtain ⟨h3, h4⟩ := h
    subst h3
    exact ⟨h4.symm, ⟨hwf1, hflag, z, hz, hlev⟩, rfl, rfl, ev, hev, by simp [queue, hc]⟩
  · rw [LogEvent_full w v c hflag hc hopen hroom] at h
    simp at h

theorem admitted_logEvent (v : List GoVal) (ev : LeveledLogger) (rest : List Action)
    (h : buildEvent v = some ev) : admitted (.logEvent v :: rest) = ev :: admitted rest := by
  simp [admitted, h]

/-- Along a run of `LogEvent` calls and writer steps of a serving logger,
what was issued to the file so far, followed by what the queue still holds,
is what was there at the start followed by the events admitted meanwhile. -/
theorem run_emitWrite_invariant (g : Globals) (ht : isLevel g.globalLogLevel)
    (acts : List Action) : ∀ (w w1 : World), Serving g w →
    (∀ a ∈ acts, a.isEmitOrWrite = true) → run w acts = .done w1 →
    Serving g w1 ∧ ∃ z z1 f f1, w.m.zapLogger = some z ∧ w1.m.zapLogger = some z1 ∧
      w.m.handle = some f ∧ w1.m.handle = some f1 ∧
      f1.attempts ++ entriesOf g.globalLogLevel (queue w1) =
        f.attempts ++ entriesOf g.globalLogLevel (queue w ++ admitted acts) ∧
      z1.calls ++ callsOf (queue w1) = z.calls ++ callsOf (queue w ++ admitted acts) ∧
      f1.closeCalls = f.closeCalls ∧ f1.closed = f.closed ∧
      (f.closed = false → f.faults = [] →
        f1.faults = [] ∧
        f1.lines ++ entriesOf g.globalLogLevel (queue w1) =
          f.lines ++ entriesOf g.globalLogLevel (queue w ++ admitted acts)) := by
  induction acts with
  | nil =>
    intro w w1 hs _ h
    simp [run] at h
    subst h
    obtain ⟨hwf, hflag, z, hz, hlev⟩ := hs
    obtain ⟨hwr, hwg, hzs, hh, c, hc, hopen⟩ := hwf.1 hflag
    cases hf : w.m.handle with
    | none => simp [hf] at hh
    | some f =>
      refine ⟨⟨hwf, hflag, z, hz, hlev⟩, z, z, f, f, hz, hz, rfl, rfl, ?_, ?_, rfl, rfl, ?_⟩
      · simp [admitted]
      · simp [admitted]
      · intro _ h2; simp [admitted, h2]
  | cons a rest ih =>
    intro w w1 hs hacts h
    have hrest : ∀ b ∈ rest, b.isEmitOrWrite = true :=
      fun b hb => hacts b (List.mem_cons_of_mem a hb)
    have ha : a.isEmitOrWrite = true := hacts a (List.mem_cons_self a rest)
    simp only [run] at h
    cases a with
    | init g0 opened logFileName rewrite => simp [Action.isEmitOrWrite] at ha
    | deInit => simp [Action.isEmitOrWrite] at ha
    | logEvent v =>
      simp only [step] at h
      cases hl : LogEvent w v with
      | blocked => rw [hl] at h; simp at h
      | panic => rw [hl] at h; simp at h
      | done p =>
        obtain ⟨w2, e⟩ := p
        rw [hl] at h
        simp only at h
        obtain ⟨_, hs2, hz2, hh2, ev, hev, hq2⟩ := LogEvent_effect g w w2 v e hs hl
        obtain ⟨hs1, z, z1, f, f1, b1, b2, b3, b4, b5, b6, b7, b8, b9⟩ := ih w2 w1 hs2 hrest h
        refine ⟨hs1, z, z1, f, f1, hz2 ▸ b1, b2, hh2 ▸ b3, b4, ?_, ?_, b7, b8, ?_⟩
        · rw [b5, hq2, admitted_logEvent v ev rest hev]; simp
        · rw [b6, hq2, admitted_logEvent v ev rest hev]; simp
        · intro h1 h2
          obtain ⟨c1, c2⟩ := b9 h1 h2
          refine ⟨c1, ?_⟩
          rw [c2, hq2, admitted_logEvent v ev rest hev]; simp
    | writer =>
      simp only [step] at h
      cases hst : writerStep w with
      | blocked => rw [hst] at h; simp at h
      | panic => rw [hst] at h; simp at h
      | done w2 =>
        rw [hst] at h
        simp only at h
        cases hq : queue w with
        | nil =>
          obtain ⟨hwf, hflag, z, hz, hlev⟩ := hs
          obtain ⟨hwr, hwg, hzs, hh, c, hc, hopen⟩ := hwf.1 hflag
          have hbuf : c.buf = [] := by simpa [queue, hc] using hq
          rw [writerStep_empty w c hwf hflag hc hbuf] at hst
          simp at hst
        | cons x q =>
          obtain ⟨w3, z, z2, f, f2, hst3, hs2, hq2, a1, a2, a3, a4, a5, a6, a7, a8, a9⟩ :=
            writerStep_effect g w ht hs x q hq
          rw [hst] at hst3
          simp at hst3
          subst hst3
          obtain ⟨hs1, z', z1, f', f1, b1, b2, b3, b4, b5, b6, b7, b8, b9⟩ :=
            ih w2 w1 hs2 hrest h
          rw [a2] at b1
          rw [a4] at b3
          simp at b1 b3
          subst b1 b3
          have hadm : admitted (Action.writer :: rest) = admitted rest := by simp [admitted]
          refine ⟨hs1, z, z1, f, f1, a1, b2, a3, b4, ?_, ?_, b7.trans a7, b8.trans a8, ?_⟩
          · rw [b5, hq2, a6, hadm, List.cons_append, entriesOf_cons _ x (q ++ admitted rest),
              List.append_assoc]
          · rw [b6, hq2, a5, hadm, List.cons_append, callsOf_cons x (q ++ admitted rest),
              List.append_assoc]
          · intro h1 h2
            obtain ⟨c1, c2⟩ := a9 h1 h2
            obtain ⟨d1, d2⟩ := b9 (a8.trans h1) c1
            refine ⟨d1, ?_⟩
            rw [d2, hq2, c2, hadm, List.cons_append, entriesOf_cons _ x (q ++ admitted rest),
              List.append_assoc]

end util

namespace util

/-- Effect of `DeInit` on a serving logger: the call returns, the writer has
gone through the whole queue, in order, and left; the file is closed. -/
theorem DeInit_effect (g : Globals) (ht : isLevel g.globalLogLevel) (w : World)
    (hs : Serving g w) :
    ∃ w2 z z2 f f2 c2, DeInit w = .done w2 ∧ w.m.zapLogger = some z ∧
      w2.m.zapLogger = some z2 ∧ w.m.handle = some f ∧ w2.m.handle = some f2 ∧
      w2.m.logBuffer = some c2 ∧ c2.closed = true ∧ c2.buf = [] ∧
      w2.writer = false ∧ w2.m.loggerInitialized = false ∧ w2.m.wg = some 0 ∧
      z2.calls = z.calls ++ callsOf (queue w) ∧
      f2.attempts = f.attempts ++ entriesOf g.globalLogLevel (queue w) ∧
      f2.closed = true ∧ f2.closeCalls = f.closeCalls + 1 ∧
      (f.closed = false → f.faults = [] →
        f2.lines = f.lines ++ entriesOf g.globalLogLevel (queue w)) := by
  obtain ⟨hwf, hflag, z, hz, hlev⟩ := hs
  obtain ⟨c, m1, hc, hopen, hl, h1, h3, h4, h5, hd⟩ := DeInit_running w hwf hflag
  cases hf : w.m.handle with
  | none =>
    have := (hwf.1 hflag).2.2.2.1
    simp [hf] at this
  | some f =>
    have hex := logWritterLoop_effect g ht c.buf
      ({ w.m with loggerInitialized := false,
                  logBuffer := some { c with closed := true, buf := [] } } : MetricsLogger)
      z f hz hlev hf
    obtain ⟨m2, z2, f2, hl2, hz2, hf2, a1, a2, a3, a4, a5, a6, a7, a8, a9⟩ := hex
    rw [hl] at hl2
    simp at hl2
    subst hl2
    have hq : queue w = c.buf := by simp [queue, hc]
    refine ⟨_, z, z2, f, f2.Close, { c with closed := true, buf := [] }, hd, hz, hz2, rfl,
      by simp [hf2], h1, rfl, rfl, rfl, h3, rfl, by rw [a5, hq], by simp [File.Close, a6, hq],
      rfl, by simp [File.Close, a7], ?_⟩
    intro b1 b2
    simp [File.Close, (a9 b1 b2).2, hq]

theorem serving_runningWith (g : Globals) (f : File) (q : List LeveledLogger)
    (hq : q.length ≤ LOG_BUFFER_SIZE) : Serving g (runningWith g f q) := by
  refine ⟨⟨?_, ?_, ?_⟩, rfl, _, rfl, rfl⟩
  · intro _; simp [runningWith]
  · intro h; simp [runningWith] at h
  · intro c hc
    simp [runningWith] at hc
    subst hc
    exact ⟨rfl, hq⟩

theorem Init_ok_runningWith (g : Globals) (OpenFile : String → Bool → Except GoError File)
    (w : World) (logFileName : String) (rewrite : Bool) (f : File)
    (h : OpenFile (g.LOG_FOLDER_NAME_WITH_PATH ++ "/" ++ logFileName) rewrite = .ok f) :
    Init g OpenFile w logFileName rewrite = (runningWith g f [], none) := by
  rw [Init_ok g OpenFile w logFileName rewrite f h]
  rfl

end util

/-! ## Ordering, draining and shutdown -/

namespace util

/-- C4: in every state reached from a successful `Init` by `LogEvent` calls and
writer steps, the entries issued to the sink so far, followed by the entries
of the threshold-passing events still in the queue, are the entries of the
threshold-passing events among all admitted ones, in admission order; when no
write fails the same holds of the lines of the file.  A `DeInit` called in
such a state returns with exactly those entries in the sink. -/
theorem C4_sink_order_is_admission_order (g : Globals)
    (OpenFile : String → Bool → Except GoError File) (w0 : World) (logFileName : String)
    (rewrite : Bool) (f0 : File) (acts : List Action) (w : World)
    (ht : isLevel g.globalLogLevel)
    (hopen : OpenFile (g.LOG_FOLDER_NAME_WITH_PATH ++ "/" ++ logFileName) rewrite = .ok f0)
    (hacts : ∀ a ∈ acts, a.isEmitOrWrite = true)
    (hrun : run (Init g OpenFile w0 logFileName rewrite).1 acts = .done w) :
    ∃ f, w.m.handle = some f ∧
      f.attempts ++ entriesOf g.globalLogLevel (queue w) =
        f0.attempts ++ entriesOf g.globalLogLevel (admitted acts) ∧
      (f0.closed = false → f0.faults = [] →
        f.lines ++ entriesOf g.globalLogLevel (queue w) =
          f0.lines ++ entriesOf g.globalLogLevel (admitted acts)) ∧
      ∃ w2 f2, DeInit w = .done w2 ∧ w2.m.handle = some f2 ∧
        f2.attempts = f0.attempts ++ entriesOf g.globalLogLevel (admitted acts) ∧
        (f0.closed = false → f0.faults = [] →
          f2.lines = f0.lines ++ entriesOf g.globalLogLevel (admitted acts)) := by
  rw [Init_ok_runningWith g OpenFile w0 logFileName rewrite f0 hopen] at hrun
  have hs0 : Serving g (runningWith g f0 []) := serving_runningWith g f0 [] (by simp)
  obtain ⟨hs, z, z1, f, f1, a1, a2, a3, a4, a5, a6, a7, a8, a9⟩ :=
    run_emitWrite_invariant g ht acts _ w hs0 hacts hrun
  have hf : f = f0 := by
    have : (runningWith g f0 []).m.handle = some f0 := rfl
    rw [this] at a3
    simp at a3
    exact a3.symm
  subst hf
  have hq0 : queue (runningWith g f []) = [] := rfl
  rw [hq0, List.nil_append] at a5 a9
  obtain ⟨w2, z', z2, f', f2, c2, b1, b2, b3, b4, b5, b6, b7, b8, b9, b10, b11, b12, b13,
    b14, b15, b16⟩ := DeInit_effect g ht w hs
  rw [a4] at b4
  simp at b4
  subst b4
  refine ⟨f1, a4, a5, fun h1 h2 => (a9 h1 h2).2, w2, f2, b1, b5, ?_, ?_⟩
  · rw [b13, a5]
  · intro h1 h2
    rw [b16 (a8.trans h1) (a9 h1 h2).1, (a9 h1 h2).2]

/-- C4, on the scenario of the specification: threshold INFO, the events
(ERROR, "a"), (DEBUG, "b"), (WARN, "c") admitted, then `DeInit`: the file
holds the entries of "a" and "c", in that order. -/
theorem C4_sink_order_is_admission_order_witness :
    ∃ w2 f2,
      DeInit (runningWith {} { lines := [] }
        [{ level := 1, logMsg := "a" }, { level := 4, logMsg := "b" },
         { level := 2, logMsg := "c" }]) = .done w2 ∧
      w2.m.handle = some f2 ∧
      f2.lines = [(zapcore.ErrorLevel, "a"), (zapcore.WarnLevel, "c")] :=
  match C4_sink_order_is_admission_order {} (fun _ _ => .ok { lines := [] }) {}
      "webService.log" false { lines := [] }
      [.logEvent [.int 1, .str "a"], .logEvent [.int 4, .str "b"],
       .logEvent [.int 2, .str "c"]]
      (runningWith {} { lines := [] }
        [{ level := 1, logMsg := "a" }, { level := 4, logMsg := "b" },
         { level := 2, logMsg := "c" }])
      (by decide) rfl (by decide) (by decide) with
  | ⟨_, _, _, _, w2, f2, h1, h2, _, h4⟩ => ⟨w2, f2, h1, h2, (h4 rfl rfl).trans (by decide)⟩

end util

namespace util

theorem zapCall_closeCount (m m1 : MetricsLogger) (lvl : Int) (msg : String)
    (h : zapCall m lvl msg = .done m1) : closeCount m1 = closeCount m := by
  unfold zapCall at h
  cases hz : m.zapLogger with
  | none => simp [hz] at h
  | some z =>
    simp only [hz] at h
    by_cases hl : z.level ≤ lvl
    · rw [if_pos hl] at h
      simp at h
      subst h
      cases hf : m.handle with
      | none => simp [closeCount, hf]
      | some f => simp [closeCount, hf, (File.Write_closeCalls f (lvl, msg)).1]
    · rw [if_neg hl] at h
      simp at h
      subst h
      rfl

theorem logWritterBody_closeCount (m m1 : MetricsLogger) (x : LeveledLogger)
    (h : logWritterBody m x = .done m1) : closeCount m1 = closeCount m := by
  unfold logWritterBody at h
  split_ifs at h
  · exact zapCall_closeCount m m1 _ _ h
  · exact zapCall_closeCount m m1 _ _ h
  · exact zapCall_closeCount m m1 _ _ h
  · exact zapCall_closeCount m m1 _ _ h
  · simp at h; rw [← h]

theorem logWritterLoop_closeCount (q : List LeveledLogger) : ∀ (m m1 : MetricsLogger),
    logWritterLoop m q = .done m1 → closeCount m1 = closeCount m := by
  induction q with
  | nil => intro m m1 h; simp [logWritterLoop] at h; rw [← h]
  | cons x rest ih =>
    intro m m1 h
    simp only [logWritterLoop] at h
    cases hb : logWritterBody m x with
    | done m2 =>
      rw [hb] at h
      exact (ih m2 m1 h).trans (logWritterBody_closeCount m m2 x hb)
    | blocked => rw [hb] at h; simp at h
    | panic => rw [hb] at h; simp at h

end util

namespace util

theorem threeQueued_reachable : Reachable threeQueued :=
  ⟨[.init {} (.ok { lines := [] }) "webService.log" false, .logEvent [.int 1, .str "a"],
    .logEvent [.int 4, .str "b"], .logEvent [.int 2, .str "c"]], by decide⟩

/-- C5, at the call `LogEvent()` with an empty argument list on a logger just
initialised: the call returns nil and the event `LeveledLogger{0, ""}` is in
the queue; `DeInit` then returns with the queue empty, and the zap logger has
received no call and the file no write. -/
theorem C5_empty_argument_list_event_gets_no_sink_call :
    LogEvent freshRunning [] =
      .done (enqueue freshRunning { buf := [], cap := LOG_BUFFER_SIZE, closed := false }
        { level := 0, logMsg := "" }, none) ∧
    ∃ w2 f2,
      DeInit (enqueue freshRunning { buf := [], cap := LOG_BUFFER_SIZE, closed := false }
        { level := 0, logMsg := "" }) = .done w2 ∧
      queue w2 = [] ∧ zapCalls w2.m = [] ∧ w2.m.handle = some f2 ∧ f2.attempts = [] := by
  refine ⟨by decide, _, _, rfl, ?_, ?_, rfl, ?_⟩ <;> decide

/-- C6: `DeInit` called on a Running logger, whatever its queue holds, returns;
afterwards the queue is empty, the writer goroutine has ended, the file is
closed, the logger is no longer Running and every `LogEvent` call returns
`ErrLogNotInitialized`, leaving the state as it is. -/
theorem C6_DeInit_drains_and_closes (w : World) (hw : Reachable w) (hr : Running w) :
    ∃ w2, DeInit w = .done w2 ∧ queue w2 = [] ∧ w2.writer = false ∧
      sinkClosed w2.m = true ∧ ¬ Running w2 ∧
      ∀ v, LogEvent w2 v = .done (w2, some ErrLogNotInitialized) := by
  have hwf := wellFormed_of_reachable w hw
  obtain ⟨c, m1, hc, hopen, hl, h1, h3, h4, h5, hd⟩ := DeInit_running w hwf hr
  refine ⟨_, hd, ?_, rfl, ?_, ?_, ?_⟩
  · simp [queue, h1]
  · cases hf : m1.handle with
    | none => simp [hf] at h5
    | some f => simp [sinkClosed, hf, File.Close]
  · simp [Running, h3]
  · intro v
    exact LogEvent_notRunning _ v h3

/-- C6, at a logger holding three events. -/
theorem C6_DeInit_drains_and_closes_witness :
    Reachable threeQueued ∧ Running threeQueued ∧
    ∃ w2, DeInit threeQueued = .done w2 ∧ queue w2 = [] ∧ w2.writer = false ∧
      sinkClosed w2.m = true ∧ ¬ Running w2 ∧
      ∀ v, LogEvent w2 v = .done (w2, some ErrLogNotInitialized) :=
  ⟨threeQueued_reachable, rfl, C6_DeInit_drains_and_closes threeQueued threeQueued_reachable rfl⟩

/-- C7: `DeInit` is idempotent.  On every reachable logger the call returns
(no run-time error, no suspension), a second call returns as well and changes
nothing, so that the file receives at most one `Close`; on a logger that is
not Running, be it uninitialised or already closed, `DeInit` changes
nothing. -/
theorem C7_DeInit_idempotent (w : World) (hw : Reachable w) :
    ∃ w1, DeInit w = .done w1 ∧ DeInit w1 = .done w1 ∧
      closeCount w1.m ≤ closeCount w.m + 1 ∧
      (Running w → closeCount w1.m = closeCount w.m + 1) ∧
      (¬ Running w → w1 = w) := by
  have hwf := wellFormed_of_reachable w hw
  cases hf : w.m.loggerInitialized with
  | false =>
    refine ⟨w, DeInit_notRunning w hf, DeInit_notRunning w hf, by omega, ?_, fun _ => rfl⟩
    intro hr
    simp [Running, hf] at hr
  | true =>
    obtain ⟨c, m1, hc, hopen, hl, h1, h3, h4, h5, hd⟩ := DeInit_running w hwf hf
    have hcc := logWritterLoop_closeCount c.buf _ m1 hl
    have hcount : closeCount { m1 with wg := some 0, handle := m1.handle.map File.Close }
        = closeCount w.m + 1 := by
      cases hh : m1.handle with
      | none => simp [hh] at h5
      | some f =>
        have h6 : closeCount m1 = f.closeCalls := by simp [closeCount, hh]
        have h7 : closeCount w.m = f.closeCalls := by
          rw [← h6, hcc]
          rfl
        rw [h7]
        simp [closeCount, File.Close]
    refine ⟨_, hd, DeInit_notRunning _ h3, le_of_eq hcount, fun _ => hcount, ?_⟩
    intro hr
    simp [Running, hf] at hr

/-- C7, at a logger holding three events: the second `DeInit` changes nothing
and the file has received one `Close`. -/
theorem C7_DeInit_idempotent_witness :
    Reachable threeQueued ∧
    ∃ w1, DeInit threeQueued = .done w1 ∧ DeInit w1 = .done w1 ∧ closeCount w1.m = 1 :=
  ⟨threeQueued_reachable,
    match C7_DeInit_idempotent threeQueued threeQueued_reachable with
    | ⟨w1, h1, h2, _, h4, _⟩ => ⟨w1, h1, h2, h4 rfl⟩⟩

end util

/-! ## Failure of `Init` -/

namespace util

/-- C8, as stated, fails on the zero value `MetricsLogger{}` when the log file
cannot be opened: after `Init` has returned the error, the fields `wg` and
`logBuffer` are no longer nil, so the logger is not as it was before the
call. -/
theorem C8_failed_Init_changes_fields :
    (Init {} (fun _ _ => .error (.other "permission denied")) {} "webService.log" false).2
      = some (.other "permission denied") ∧
    (Init {} (fun _ _ => .error (.other "permission denied")) {} "webService.log" false).1.m
      ≠ ({} : World).m ∧
    (Init {} (fun _ _ => .error (.other "permission denied")) {} "webService.log" false).1.m.wg
      = some 0 ∧
    (Init {} (fun _ _ => .error (.other "permission denied")) {} "webService.log"
      false).1.m.logBuffer = some { buf := [], cap := LOG_BUFFER_SIZE, closed := false } := by
  refine ⟨rfl, by decide, rfl, rfl⟩

/-- C8, amended: when opening the log file fails, `Init` returns that error
and starts no writer goroutine; `loggerInitialized` and `zapLogger` are as
before the call, so that a logger that was not initialised stays so and
`LogEvent` still returns `ErrLogNotInitialized`; `wg` and `logBuffer` hold a
new wait group with counter zero and a new empty channel of capacity
`LOG_BUFFER_SIZE`, and `handle` is nil. -/
theorem C8_failed_Init_keeps_flag (g : Globals)
    (OpenFile : String → Bool → Except GoError File) (w : World) (logFileName : String)
    (rewrite : Bool) (err : GoError)
    (hopen : OpenFile (g.LOG_FOLDER_NAME_WITH_PATH ++ "/" ++ logFileName) rewrite
      = .error err) :
    (Init g OpenFile w logFileName rewrite).2 = some err ∧
    (Init g OpenFile w logFileName rewrite).1.writer = false ∧
    (Init g OpenFile w logFileName rewrite).1.m.loggerInitialized = w.m.loggerInitialized ∧
    (Init g OpenFile w logFileName rewrite).1.m.zapLogger = w.m.zapLogger ∧
    (Init g OpenFile w logFileName rewrite).1.m.wg = some 0 ∧
    (Init g OpenFile w logFileName rewrite).1.m.logBuffer
      = some { buf := [], cap := LOG_BUFFER_SIZE, closed := false } ∧
    (Init g OpenFile w logFileName rewrite).1.m.handle = none ∧
    (w.m.loggerInitialized = false → ∀ v,
      LogEvent (Init g OpenFile w logFileName rewrite).1 v
        = .done ((Init g OpenFile w logFileName rewrite).1, some ErrLogNotInitialized)) := by
  rw [Init_error g OpenFile w logFileName rewrite err hopen]
  refine ⟨rfl, rfl, rfl, rfl, rfl, rfl, rfl, ?_⟩
  intro hf v
  exact LogEvent_notRunning _ v hf

/-- C8, amended, at the zero value `MetricsLogger{}`. -/
theorem C8_failed_Init_keeps_flag_witness :
    (Init {} (fun _ _ => .error (.other "permission denied")) {} "webService.log" false).2
      = some (.other "permission denied") ∧
    (Init {} (fun _ _ => .error (.other "permission denied")) {} "webService.log"
      false).1.m.loggerInitialized = false :=
  match C8_failed_Init_keeps_flag {} (fun _ _ => .error (.other "permission denied")) {}
      "webService.log" false (.other "permission denied") rfl with
  | ⟨h1, _, h3, _⟩ => ⟨h1, h3⟩

end util

/-! ## Logging and the request path -/

namespace endpoints

theorem logThen_leaf (lw1 lw2 : util.World) (v : List GoVal) (X : ResponseWriter)
    (qs : List (Int × Int × Int × Int)) (h1 : util.Returning lw1) (h2 : util.Returning lw2) :
    ∃ s1 s2,
      logThen lw1 v (fun logger => .done { w := X, logger := logger, queries := qs })
        = .done s1 ∧
      logThen lw2 v (fun logger => .done { w := X, logger := logger, queries := qs })
        = .done s2 ∧
      s1.w = s2.w ∧ s1.queries = s2.queries := by
  obtain ⟨a1, e1, ha⟩ := h1 v
  obtain ⟨a2, e2, hb⟩ := h2 v
  refine ⟨{ w := X, logger := a1, queries := qs }, { w := X, logger := a2, queries := qs },
    ?_, ?_, rfl, rfl⟩
  · simp only [logThen, ha]
  · simp only [logThen, hb]

theorem handler_response_independent (m : Metrics) (lw1 lw2 : util.World)
    (nowStart nowEnd : Int) (w : ResponseWriter) (r : Request)
    (h1 : util.Returning lw1) (h2 : util.Returning lw2) :
    ∃ s1 s2,
      Metrics.GetMetricsHandler { m with logger := lw1 } nowStart nowEnd w r = .done s1 ∧
      Metrics.GetMetricsHandler { m with logger := lw2 } nowStart nowEnd w r = .done s2 ∧
      s1.w = s2.w ∧ s1.queries = s2.queries := by
  by_cases hm : r.Method ≠ http.MethodGet
  · simp only [Metrics.GetMetricsHandler, if_pos hm]
    exact logThen_leaf lw1 lw2 _ _ _ h1 h2
  · cases hl : strconv.Atoi (r.var "limit") with
    | error err =>
      simp only [Metrics.GetMetricsHandler, if_neg hm, hl]
      exact logThen_leaf lw1 lw2 _ _ _ h1 h2
    | ok limit =>
      cases ho : strconv.Atoi (r.var "offset") with
      | error err =>
        simp only [Metrics.GetMetricsHandler, if_neg hm, hl, ho]
        exact logThen_leaf lw1 lw2 _ _ _ h1 h2
      | ok offset =>
        cases hb : r.Body with
        | error err =>
          simp only [Metrics.GetMetricsHandler, if_neg hm, hl, ho, hb]
          exact logThen_leaf lw1 lw2 _ _ _ h1 h2
        | ok reqBody =>
          by_cases ht : (if reqBody.Start = 0 then nowStart - 24 * 3600 else reqBody.Start) >
              (if reqBody.End = 0 then nowEnd else reqBody.End)
          · simp only [Metrics.GetMetricsHandler, if_neg hm, hl, ho, hb, if_pos ht]
            exact logThen_leaf lw1 lw2 _ _ _ h1 h2
          · cases hg : m.store.GetMetrics
                (if reqBody.Start = 0 then nowStart - 24 * 3600 else reqBody.Start)
                (if reqBody.End = 0 then nowEnd else reqBody.End)
                (if limit ≤ 0 then 100 else limit) (if offset < 0 then 0 else offset) with
            | error err =>
              by_cases hc : err = context.Canceled
              · simp only [Metrics.GetMetricsHandler, if_neg hm, hl, ho, hb, if_neg ht, hg,
                  if_pos hc]
                exact logThen_leaf lw1 lw2 _ _ _ h1 h2
              · simp only [Metrics.GetMetricsHandler, if_neg hm, hl, ho, hb, if_neg ht, hg,
                  if_neg hc]
                exact logThen_leaf lw1 lw2 _ _ _ h1 h2
            | ok fetchedMetrics =>
              by_cases hn : fetchedMetrics.length = 0
              · simp only [Metrics.GetMetricsHandler, if_neg hm, hl, ho, hb, if_neg ht, hg,
                  if_pos hn]
                exact logThen_leaf lw1 lw2 _ _ _ h1 h2
              · simp only [Metrics.GetMetricsHandler, if_neg hm, hl, ho, hb, if_neg ht, hg,
                  if_neg hn]
                exact ⟨_, _, rfl, rfl, rfl, rfl⟩

theorem returning_notRunning (lw : util.World) (h : ¬ util.Running lw) : util.Returning lw := by
  intro v
  exact ⟨lw, _, util.LogEvent_notRunning lw v (by simpa [util.Running] using h)⟩

theorem returning_room (lw : util.World) (c : util.Chan) (hw : util.Reachable lw)
    (hr : util.Running lw) (hc : lw.m.logBuffer = some c) (hroom : c.buf.length < c.cap) :
    util.Returning lw := by
  intro v
  have hwf := util.wellFormed_of_reachable lw hw
  obtain ⟨_, _, _, _, c1, hc1, hopen⟩ := hwf.1 hr
  rw [hc] at hc1
  simp at hc1
  subst hc1
  obtain ⟨ev, hev⟩ := util.buildEvent_total v
  exact ⟨_, _, util.LogEvent_room lw v c ev hr hc hopen hroom hev⟩

/-- C9: for every request, store and clock readings, the handler answers with
the same response (status code, headers and body) and makes the same store
queries whether its logger is Running with room in the queue, so that every
`LogEvent` call returns nil, or not initialised, so that every `LogEvent` call
returns `ErrLogNotInitialized`. -/
theorem C9_response_independent_of_logging (m : Metrics) (lw1 lw2 : util.World)
    (c : util.Chan) (nowStart nowEnd : Int) (w : ResponseWriter) (r : Request)
    (hw : util.Reachable lw1) (hr : util.Running lw1) (hc : lw1.m.logBuffer = some c)
    (hroom : c.buf.length < c.cap) (h2 : ¬ util.Running lw2) :
    ∃ s1 s2,
      Metrics.GetMetricsHandler { m with logger := lw1 } nowStart nowEnd w r = .done s1 ∧
      Metrics.GetMetricsHandler { m with logger := lw2 } nowStart nowEnd w r = .done s2 ∧
      s1.w = s2.w ∧ s1.queries = s2.queries :=
  handler_response_independent m lw1 lw2 nowStart nowEnd w r
    (returning_room lw1 c hw hr hc hroom) (returning_notRunning lw2 h2)

/-- C9, for a request answered with 404 by an empty store, once with a logger
just initialised and once with the zero value `MetricsLogger{}`. -/
theorem C9_response_independent_of_logging_witness :
    ∃ s1 s2,
      Metrics.GetMetricsHandler
        { logger := util.freshRunning, store := { GetMetrics := fun _ _ _ _ => .ok [] } }
        1700000000 1700000000 {}
        { Method := "GET", vars := [("limit", "100"), ("offset", "0")],
          Body := .ok { Start := 1, End := 2 } } = .done s1 ∧
      Metrics.GetMetricsHandler
        { logger := {}, store := { GetMetrics := fun _ _ _ _ => .ok [] } }
        1700000000 1700000000 {}
        { Method := "GET", vars := [("limit", "100"), ("offset", "0")],
          Body := .ok { Start := 1, End := 2 } } = .done s2 ∧
      s1.w = s2.w ∧ s1.queries = s2.queries :=
  C9_response_independent_of_logging
    { logger := {}, store := { GetMetrics := fun _ _ _ _ => .ok [] } }
    util.freshRunning {} { buf := [], cap := util.LOG_BUFFER_SIZE, closed := false }
    1700000000 1700000000 {}
    { Method := "GET", vars := [("limit", "100"), ("offset", "0")],
      Body := .ok { Start := 1, End := 2 } }
    util.freshRunning_reachable rfl rfl (by decide) (by simp [util.Running])

end endpoints

/-! ## The bound on the queue -/

namespace util

theorem run_replicate_logEvent (g : Globals) (f : File) (n : Nat) :
    ∀ q : List LeveledLogger, q.length + n ≤ LOG_BUFFER_SIZE →
    run (runningWith g f q) (List.replicate n (.logEvent [.str "x"])) =
      .done (runningWith g f
        (q ++ List.replicate n { level := LOG_LEVEL_INFO, logMsg := "x" })) := by
  induction n with
  | zero => intro q _; simp [run]
  | succ n ih =>
    intro q hq
    have hroom : q.length < LOG_BUFFER_SIZE := by omega
    have hstep : LogEvent (runningWith g f q) [.str "x"] =
        .done (runningWith g f (q ++ [{ level := LOG_LEVEL_INFO, logMsg := "x" }]), none) := by
      rw [LogEvent_room (runningWith g f q) [.str "x"]
        { buf := q, cap := LOG_BUFFER_SIZE, closed := false }
        { level := LOG_LEVEL_INFO, logMsg := "x" } rfl rfl rfl hroom rfl]
      rfl
    have hlen : (q ++ [({ level := LOG_LEVEL_INFO, logMsg := "x" } : LeveledLogger)]).length + n
        ≤ LOG_BUFFER_SIZE := by
      simp
      omega
    simp only [List.replicate_succ, run, step, hstep]
    rw [ih _ hlen]
    simp [List.append_assoc]

theorem run_cons_done (w w1 : World) (a : Action) (rest : List Action)
    (h : step w a = .done w1) : run w (a :: rest) = run w1 rest := by
  simp only [run, h]

theorem fullQueue_reachable : Reachable fullQueue := by
  refine ⟨.init {} (.ok { lines := [] }) "webService.log" false ::
    List.replicate LOG_BUFFER_SIZE (.logEvent [.str "x"]), ?_⟩
  have h0 : step {} (.init {} (.ok { lines := [] }) "webService.log" false) =
      .done (runningWith {} { lines := [] } []) := rfl
  rw [run_cons_done _ _ _ _ h0,
    run_replicate_logEvent {} { lines := [] } LOG_BUFFER_SIZE [] (by simp), List.nil_append]
  rfl

theorem queue_length_le (w : World) (hw : WellFormed w) :
    (queue w).length ≤ LOG_BUFFER_SIZE := by
  unfold queue
  cases hc : w.m.logBuffer with
  | none => simp
  | some c =>
    have := hw.2.2 c hc
    simp only []
    omega

/-- C10: in every reachable state the queue holds at most `LOG_BUFFER_SIZE`
(1000) events.  A `LogEvent` call made on a Running logger whose queue holds
exactly that many is suspended at the send: the event is neither admitted nor
dropped and no error is returned; after the writer's next step, which takes
one event out, the call returns nil with its event at the tail of the
queue. -/
theorem C10_queue_bounded_full_send_waits (w : World) (hw : Reachable w) :
    LOG_BUFFER_SIZE = 1000 ∧ (queue w).length ≤ LOG_BUFFER_SIZE ∧
    (Running w → (queue w).length = LOG_BUFFER_SIZE → ∀ v,
      LogEvent w v = .blocked ∧
      ∃ ev w1 c1, buildEvent v = some ev ∧ writerStep w = .done w1 ∧
        w1.m.logBuffer = some c1 ∧ (queue w1).length + 1 = LOG_BUFFER_SIZE ∧
        LogEvent w1 v = .done (enqueue w1 c1 ev, none) ∧
        queue (enqueue w1 c1 ev) = queue w1 ++ [ev]) := by
  have hwf := wellFormed_of_reachable w hw
  refine ⟨rfl, queue_length_le w hwf, ?_⟩
  intro hr hfull v
  obtain ⟨hwr, hwg, hz, hh, c, hc, hopen⟩ := hwf.1 hr
  have hcap := hwf.2.2 c hc
  have hq : queue w = c.buf := by simp [queue, hc]
  rw [hq] at hfull
  have hnoroom : ¬ c.buf.length < c.cap := by omega
  obtain ⟨ev, hev⟩ := buildEvent_total v
  refine ⟨LogEvent_full w v c hr hc hopen hnoroom, ?_⟩
  cases hbuf : c.buf with
  | nil => simp [hbuf, LOG_BUFFER_SIZE] at hfull
  | cons x rest =>
    obtain ⟨m1, _, hs, h1, h2, h3, h4, h5⟩ := writerStep_cons w c x rest hwf hr hc hbuf
    have hlen : rest.length + 1 = LOG_BUFFER_SIZE := by
      rw [hbuf] at hfull
      simpa using hfull
    refine ⟨ev, { w with m := m1 }, { c with buf := rest }, hev, hs, h1, ?_, ?_, ?_⟩
    · simpa [queue, h1] using hlen
    · exact LogEvent_room { w with m := m1 } v { c with buf := rest } ev h3 h1 hopen
        (by simp only []; omega) hev
    · simp [queue, enqueue, h1]

/-- C10, at a logger whose queue holds 1000 events: the next `LogEvent` call
is suspended. -/
theorem C10_queue_bounded_full_send_waits_witness :
    Reachable fullQueue ∧ Running fullQueue ∧ (queue fullQueue).length = LOG_BUFFER_SIZE ∧
    LogEvent fullQueue [.int 1, .str "late"] = .blocked :=
  have hlen : (queue fullQueue).length = LOG_BUFFER_SIZE := by
    simp [queue, fullQueue, runningWith]
  ⟨fullQueue_reachable, rfl, hlen,
    ((C10_queue_bounded_full_send_waits fullQueue fullQueue_reachable).2.2 rfl hlen
      [.int 1, .str "late"]).1⟩

end util

/-! ## `LogEvent` against `DeInit` -/

namespace util

theorem LogEvent_eq_check_send (w : World) (v : List GoVal) :
    LogEvent w v =
      match LogEvent_check w v with
      | .done (.error err) => .done (w, some err)
      | .done (.ok lobj) => LogEvent_send w lobj
      | .blocked => .blocked
      | .panic => .panic := by
  unfold LogEvent LogEvent_check LogEvent_send
  cases buildEvent v with
  | none => rfl
  | some lobj =>
    by_cases hf : w.m.loggerInitialized = false
    · simp [hf]
    · simp [hf]

theorem DeInit_eq_close_wait (w : World) (hf : w.m.loggerInitialized = true) :
    DeInit w =
      match DeInit_close w with
      | .done w1 => DeInit_wait w1
      | .blocked => .blocked
      | .panic => .panic := by
  unfold DeInit DeInit_close DeInit_wait
  simp only [hf]
  cases chanClose w.m.logBuffer with
  | done c => simp
  | blocked => simp
  | panic => simp

/-- C11, on a logger just initialised: thread A calls
`LogEvent(LOG_LEVEL_INFO, "x")` and passes the test of `m.loggerInitialized`;
thread B then runs `DeInit` up to `close(m.logBuffer)`; the send thread A goes
on to make is a send on a closed channel, a run-time error in the caller. -/
theorem C11_send_after_check_hits_closed_channel :
    LogEvent_check freshRunning [.int 3, .str "x"] = .done (.ok { level := 3, logMsg := "x" }) ∧
    ∃ w1, DeInit_close freshRunning = .done w1 ∧
      w1.m.logBuffer = some { buf := [], cap := LOG_BUFFER_SIZE, closed := true } ∧
      LogEvent_send w1 { level := 3, logMsg := "x" } = .panic := by
  have hev : buildEvent [.int 3, .str "x"] = some { level := 3, logMsg := "x" } := by decide
  refine ⟨?_, _, rfl, rfl, rfl⟩
  simp only [LogEvent_check, hev]
  rfl

end util

/-! ## Error codes -/

namespace endpoints

theorem Is_pkgVar_unique (e : GoError) : e.isChain = true →
    ∀ n1 m1 n2 m2, errors.Is e (.pkgVar n1 m1) = true → errors.Is e (.pkgVar n2 m2) = true →
      GoError.pkgVar n1 m1 = GoError.pkgVar n2 m2 := by
  induction e with
  | pkgVar name msg =>
    intro _ n1 m1 n2 m2 h1 h2
    simp [errors.Is] at h1 h2
    rw [← h1.1, ← h1.2, ← h2.1, ← h2.2]
  | wrapped msg inner ih =>
    intro hc n1 m1 n2 m2 h1 h2
    simp [errors.Is] at h1 h2
    exact ih (by simpa [GoError.isChain] using hc) n1 m1 n2 m2 h1 h2
  | joined a b _ _ =>
    intro hc
    simp [GoError.isChain] at hc
  | other msg =>
    intro _ n1 m1 n2 m2 h1
    simp [errors.Is] at h1

theorem GetErrorCode_some_ne_success (e : GoError) : GetErrorCode (some e) ≠ API_SUCCESS := by
  unfold GetErrorCode
  simp only []
  split_ifs <;> decide

/-- C12, as stated, fails on `errors.Join(ErrInvalidTimeRange,
ErrNoMetricsAvailable)`: the error wraps `ErrInvalidTimeRange` and the code
returned is `METRICS_NOT_AVAILABLE` (101), not `INVALID_TIME_RANGE` (104). -/
theorem C12_joined_error_gets_first_code :
    errors.Is (.joined ErrInvalidTimeRange ErrNoMetricsAvailable) ErrInvalidTimeRange = true ∧
    GetErrorCode (some (.joined ErrInvalidTimeRange ErrNoMetricsAvailable))
      = METRICS_NOT_AVAILABLE ∧
    GetErrorCode (some (.joined ErrInvalidTimeRange ErrNoMetricsAvailable))
      ≠ INVALID_TIME_RANGE := by
  decide

/-- C12, amended: `GetErrorCode(err)` is `API_SUCCESS` (303000) if and only if
`err` is nil.  For a non-nil error the five package errors are tried in the
order `ErrNoMetricsAvailable`, `ErrInvalidRequestBody`,
`ErrInvalidParameters`, `ErrInvalidTimeRange`, `ErrRequestCancelled`, and the
first one the error is or wraps gives the code, 101 to 105; an error that is
or wraps none of them gets `API_FAILURE` (303001).  For an error that wraps at
most one error at each level, being or wrapping one of the five gives that
one's code. -/
theorem C12_GetErrorCode_first_match :
    (∀ err, GetErrorCode err = API_SUCCESS ↔ err = none) ∧
    API_SUCCESS = 303000 ∧ API_FAILURE = 303001 ∧
    (∀ e, errors.Is e ErrNoMetricsAvailable = true →
      GetErrorCode (some e) = 101) ∧
    (∀ e, errors.Is e ErrNoMetricsAvailable = false →
      errors.Is e ErrInvalidRequestBody = true → GetErrorCode (some e) = 102) ∧
    (∀ e, errors.Is e ErrNoMetricsAvailable = false →
      errors.Is e ErrInvalidRequestBody = false →
      errors.Is e ErrInvalidParameters = true → GetErrorCode (some e) = 103) ∧
    (∀ e, errors.Is e ErrNoMetricsAvailable = false →
      errors.Is e ErrInvalidRequestBody = false →
      errors.Is e ErrInvalidParameters = false →
      errors.Is e ErrInvalidTimeRange = true → GetErrorCode (some e) = 104) ∧
    (∀ e, errors.Is e ErrNoMetricsAvailable = false →
      errors.Is e ErrInvalidRequestBody = false →
      errors.Is e ErrInvalidParameters = false →
      errors.Is e ErrInvalidTimeRange = false →
      errors.Is e ErrRequestCancelled = true → GetErrorCode (some e) = 105) ∧
    (∀ e, errors.Is e ErrNoMetricsAvailable = false →
      errors.Is e ErrInvalidRequestBody = false →
      errors.Is e ErrInvalidParameters = false →
      errors.Is e ErrInvalidTimeRange = false →
      errors.Is e ErrRequestCancelled = false → GetErrorCode (some e) = API_FAILURE) ∧
    (∀ e, e.isChain = true →
      (errors.Is e ErrNoMetricsAvailable = true → GetErrorCode (some e) = 101) ∧
      (errors.Is e ErrInvalidRequestBody = true → GetErrorCode (some e) = 102) ∧
      (errors.Is e ErrInvalidParameters = true → GetErrorCode (some e) = 103) ∧
      (errors.Is e ErrInvalidTimeRange = true → GetErrorCode (some e) = 104) ∧
      (errors.Is e ErrRequestCancelled = true → GetErrorCode (some e) = 105)) := by
  have hne : ∀ e (a b : GoError), e.isChain = true → errors.Is e a = true →
      (∃ n m, a = .pkgVar n m) → (∃ n m, b = .pkgVar n m) → a ≠ b → errors.Is e b = false := by
    intro e a b hc ha ⟨n1, m1, h1⟩ ⟨n2, m2, h2⟩ hab
    cases hb : errors.Is e b with
    | false => rfl
    | true =>
      subst h1 h2
      exact absurd (Is_pkgVar_unique e hc n1 m1 n2 m2 ha hb) hab
  refine ⟨?_, rfl, rfl, ?_, ?_, ?_, ?_, ?_, ?_, ?_⟩
  · intro err
    cases err with
    | none => simp [GetErrorCode]
    | some e => simpa using GetErrorCode_some_ne_success e
  · intro e h1; simp [GetErrorCode, h1, METRICS_NOT_AVAILABLE]
  · intro e h1 h2; simp [GetErrorCode, h1, h2, INVALID_REQUEST_BODY]
  · intro e h1 h2 h3; simp [GetErrorCode, h1, h2, h3, INVALID_PARAMETERS]
  · intro e h1 h2 h3 h4; simp [GetErrorCode, h1, h2, h3, h4, INVALID_TIME_RANGE]
  · intro e h1 h2 h3 h4 h5; simp [GetErrorCode, h1, h2, h3, h4, h5, REQUEST_CANCELLED]
  · intro e h1 h2 h3 h4 h5; simp [GetErrorCode, h1, h2, h3, h4, h5]
  · intro e hc
    refine ⟨?_, ?_, ?_, ?_, ?_⟩
    · intro h; simp [GetErrorCode, h, METRICS_NOT_AVAILABLE]
    · intro h
      have a1 := hne e ErrInvalidRequestBody ErrNoMetricsAvailable hc h ⟨_, _, rfl⟩ ⟨_, _, rfl⟩
        (by decide)
      simp [GetErrorCode, h, a1, INVALID_REQUEST_BODY]
    · intro h
      have a1 := hne e ErrInvalidParameters ErrNoMetricsAvailable hc h ⟨_, _, rfl⟩ ⟨_, _, rfl⟩
        (by decide)
      have a2 := hne e ErrInvalidParameters ErrInvalidRequestBody hc h ⟨_, _, rfl⟩ ⟨_, _, rfl⟩
        (by decide)
      simp [GetErrorCode, h, a1, a2, INVALID_PARAMETERS]
    · intro h
      have a1 := hne e ErrInvalidTimeRange ErrNoMetricsAvailable hc h ⟨_, _, rfl⟩ ⟨_, _, rfl⟩
        (by decide)
      have a2 := hne e ErrInvalidTimeRange ErrInvalidRequestBody hc h ⟨_, _, rfl⟩ ⟨_, _, rfl⟩
        (by decide)
      have a3 := hne e ErrInvalidTimeRange ErrInvalidParameters hc h ⟨_, _, rfl⟩ ⟨_, _, rfl⟩
        (by decide)
      simp [GetErrorCode, h, a1, a2, a3, INVALID_TIME_RANGE]
    · intro h
      have a1 := hne e ErrRequestCancelled ErrNoMetricsAvailable hc h ⟨_, _, rfl⟩ ⟨_, _, rfl⟩
        (by decide)
      have a2 := hne e ErrRequestCancelled ErrInvalidRequestBody hc h ⟨_, _, rfl⟩ ⟨_, _, rfl⟩
        (by decide)
      have a3 := hne e ErrRequestCancelled ErrInvalidParameters hc h ⟨_, _, rfl⟩ ⟨_, _, rfl⟩
        (by decide)
      have a4 := hne e ErrRequestCancelled ErrInvalidTimeRange hc h ⟨_, _, rfl⟩ ⟨_, _, rfl⟩
        (by decide)
      simp [GetErrorCode, h, a1, a2, a3, a4, REQUEST_CANCELLED]

/-- C12, amended, at `ErrInvalidTimeRange` wrapped once by `fmt.Errorf`: the
code is 104. -/
theorem C12_GetErrorCode_first_match_witness :
    GetErrorCode (some (.wrapped "bad range: start timestamp cannot be after end timestamp"
      ErrInvalidTimeRange)) = 104 :=
  (C12_GetErrorCode_first_match.2.2.2.2.2.2.2.2.2
    (.wrapped "bad range: start timestamp cannot be after end timestamp" ErrInvalidTimeRange)
    rfl).2.2.2.1 (by decide)

end endpoints

/-! ## The request path of `GetMetricsHandler` -/

namespace endpoints

theorem logThen_done (lw : util.World) (v : List GoVal) (X : ResponseWriter)
    (qs : List (Int × Int × Int × Int)) (h : util.Returning lw) :
    ∃ lw1, logThen lw v (fun logger => .done { w := X, logger := logger, queries := qs })
      = .done { w := X, logger := lw1, queries := qs } := by
  obtain ⟨lw1, e, h1⟩ := h v
  exact ⟨lw1, by simp only [logThen, h1]⟩

theorem errorResponse_answered (res0 : APIResponse) (w : ResponseWriter) (err : GoError)
    (code : Int) (hw : w.wroteHeader = false) (hc : code ≠ http.StatusUnauthorized)
    (s : Served) (hs : s.w = res0.WriteErrorResponseWithStatusCode w err code) :
    Answered s w code false (GetErrorCode (some err)) := by
  rw [Answered, hs]
  simp [APIResponse.WriteErrorResponseWithStatusCode, ResponseWriter.headerSet,
    ResponseWriter.WriteHeader, ResponseWriter.Write, hw, hc]

/-- A path of the handler that logs and then writes an error response. -/
theorem errorPath_answered (m : Metrics) (w : ResponseWriter) (v : List GoVal)
    (err : GoError) (code errorCode : Int) (qs : List (Int × Int × Int × Int))
    (lhs : Outcome Served) (hret : util.Returning m.logger) (hw : w.wroteHeader = false)
    (hc : code ≠ http.StatusUnauthorized) (hcode : GetErrorCode (some err) = errorCode)
    (heq : lhs = logThen m.logger v (fun logger =>
      .done { w := m.Response.WriteErrorResponseWithStatusCode w err code, logger := logger,
              queries := qs })) :
    ∃ s, lhs = .done s ∧ s.queries = qs ∧ Answered s w code false errorCode := by
  obtain ⟨lw1, h1⟩ := logThen_done m.logger v
    (m.Response.WriteErrorResponseWithStatusCode w err code) qs hret
  refine ⟨_, heq.trans h1, rfl, ?_⟩
  rw [← hcode]
  exact errorResponse_answered m.Response w err code hw hc _ rfl

/-- C13: the handler checks, in this order, the method, the limit, the offset
and the body, and answers the first failure with `status` false and without a
query to the store: a method other than GET with 405 and `API_FAILURE`; a
limit, then an offset, that `strconv.Atoi` rejects with 400 and
`INVALID_PARAMETERS`; a body that does not decode with 400 and
`INVALID_REQUEST_BODY`. -/
theorem C13_validation_order (m : Metrics) (nowStart nowEnd : Int) (w : ResponseWriter)
    (r : Request) (hret : util.Returning m.logger) (hw : w.wroteHeader = false) :
    (r.Method ≠ http.MethodGet →
      ∃ s, m.GetMetricsHandler nowStart nowEnd w r = .done s ∧ s.queries = [] ∧
        Answered s w 405 false API_FAILURE) ∧
    (r.Method = http.MethodGet → (∃ err, strconv.Atoi (r.var "limit") = .error err) →
      ∃ s, m.GetMetricsHandler nowStart nowEnd w r = .done s ∧ s.queries = [] ∧
        Answered s w 400 false INVALID_PARAMETERS) ∧
    (r.Method = http.MethodGet → (∃ limit, strconv.Atoi (r.var "limit") = .ok limit) →
      (∃ err, strconv.Atoi (r.var "offset") = .error err) →
      ∃ s, m.GetMetricsHandler nowStart nowEnd w r = .done s ∧ s.queries = [] ∧
        Answered s w 400 false INVALID_PARAMETERS) ∧
    (r.Method = http.MethodGet → (∃ limit, strconv.Atoi (r.var "limit") = .ok limit) →
      (∃ offset, strconv.Atoi (r.var "offset") = .ok offset) →
      (∃ err, r.Body = .error err) →
      ∃ s, m.GetMetricsHandler nowStart nowEnd w r = .done s ∧ s.queries = [] ∧
        Answered s w 400 false INVALID_REQUEST_BODY) := by
  refine ⟨?_, ?_, ?_, ?_⟩
  · intro hm
    refine errorPath_answered m w
      [.int util.LOG_LEVEL_ERROR, .str "Method Not Allowed. Only GET requests are supported",
       .int http.StatusMethodNotAllowed]
      (.other "method Not Allowed. Only GET requests are supported") 405 API_FAILURE []
      _ hret hw (by decide) (by decide) ?_
    simp only [Metrics.GetMetricsHandler, if_pos hm]
    rfl
  · rintro hm ⟨err, hl⟩
    refine errorPath_answered m w
      [.int util.LOG_LEVEL_ERROR, .str "While getting limit from URL. Err - ",
       .other err.Error]
      ErrInvalidParameters 400 INVALID_PARAMETERS []
      _ hret hw (by decide) (by decide) ?_
    simp only [Metrics.GetMetricsHandler, hm, ne_eq, not_true_eq_false, if_false, hl]
    rfl
  · rintro hm ⟨limit, hl⟩ ⟨err, ho⟩
    refine errorPath_answered m w
      [.int util.LOG_LEVEL_ERROR, .str "While getting offset from URL. Err - ",
       .other err.Error]
      ErrInvalidParameters 400 INVALID_PARAMETERS []
      _ hret hw (by decide) (by decide) ?_
    simp only [Metrics.GetMetricsHandler, hm, ne_eq, not_true_eq_false, if_false, hl, ho]
    rfl
  · rintro hm ⟨limit, hl⟩ ⟨offset, ho⟩ ⟨err, hb⟩
    refine errorPath_answered m w
      [.int util.LOG_LEVEL_ERROR, .str "Occured while unmarshalling JSON Body. Err -",
       .other err.Error]
      ErrInvalidRequestBody 400 INVALID_REQUEST_BODY []
      _ hret hw (by decide) (by decide) ?_
    simp only [Metrics.GetMetricsHandler, hm, ne_eq, not_true_eq_false, if_false, hl, ho, hb]
    rfl

theorem returning_zero : util.Returning {} :=
  returning_notRunning {} (by simp [util.Running])

/-- C13, for a POST request on a handler with the zero value logger: 405 and
`API_FAILURE`, no query. -/
theorem C13_validation_order_witness :
    ∃ s, Metrics.GetMetricsHandler (handlerOver (.ok [])) 1700000000 1700000000 {}
        { Method := "POST", vars := [("limit", "10"), ("offset", "0")],
          Body := .error (.other "EOF") } = .done s ∧
      s.queries = [] ∧ Answered s {} 405 false API_FAILURE :=
  (C13_validation_order (handlerOver (.ok [])) 1700000000 1700000000 {}
    { Method := "POST", vars := [("limit", "10"), ("offset", "0")],
      Body := .error (.other "EOF") }
    returning_zero rfl).1 (by decide)

/-- C14, as stated, fails for the body `{"start": 5, "end": 0}`: the start
timestamp is after the end timestamp, yet the end is replaced by the current
time and the store is queried. -/
theorem C14_zero_end_is_replaced_by_now :
    ∃ s, Metrics.GetMetricsHandler
        (handlerOver (.ok [{ Timestamp := 1699999990, CPULoad := 0, Concurrency := 1 }]))
        1700000000 1700000000 {}
        (getRequest "100" "0" (.ok { Start := 5, End := 0 })) = .done s ∧
      s.w.Code = 200 ∧ s.queries = [(5, 1700000000, 100, 0)] := by
  have hl : strconv.Atoi ((getRequest "100" "0" (.ok { Start := 5, End := 0 })).var "limit")
      = .ok 100 := rfl
  have ho : strconv.Atoi ((getRequest "100" "0" (.ok { Start := 5, End := 0 })).var "offset")
      = .ok 0 := rfl
  refine ⟨{ w := APIResponse.WriteResultResponse {} {}
                   [{ Timestamp := 1699999990, CPULoad := 0, Concurrency := 1 }],
            logger := {}, queries := [(5, 1700000000, 100, 0)] }, ?_, rfl, rfl⟩
  simp only [Metrics.GetMetricsHandler, hl, ho]
  rfl

/-- C14, amended: for a GET request with integer limit and offset and a
decodable body, when the start of the range, a zero start standing for 24
hours before the current time, is after the end of the range, a zero end
standing for the current time, the handler answers 400 with `status` false
and `INVALID_TIME_RANGE` (104) and makes no query to the store. -/
theorem C14_invalid_time_range (m : Metrics) (nowStart nowEnd : Int) (w : ResponseWriter)
    (r : Request) (limit offset : Int) (reqBody : MetricsRequest)
    (hret : util.Returning m.logger) (hw : w.wroteHeader = false)
    (hm : r.Method = http.MethodGet) (hl : strconv.Atoi (r.var "limit") = .ok limit)
    (ho : strconv.Atoi (r.var "offset") = .ok offset) (hb : r.Body = .ok reqBody)
    (hrange : effectiveStart reqBody nowStart > effectiveEnd reqBody nowEnd) :
    ∃ s, m.GetMetricsHandler nowStart nowEnd w r = .done s ∧ s.queries = [] ∧
      Answered s w 400 false INVALID_TIME_RANGE ∧ INVALID_TIME_RANGE = 104 := by
  have h := errorPath_answered m w
    [.int util.LOG_LEVEL_ERROR, .str "Given startTime is greater than endTime. startTime - ",
     .other (toString (effectiveStart reqBody nowStart)), .str " endTime - ",
     .other (toString (effectiveEnd reqBody nowEnd))]
    ErrInvalidTimeRange 400 INVALID_TIME_RANGE []
    (m.GetMetricsHandler nowStart nowEnd w r) hret hw (by decide) (by decide)
    (by
      unfold effectiveStart effectiveEnd at hrange ⊢
      simp only [Metrics.GetMetricsHandler, hm, ne_eq, not_true_eq_false, if_false, hl, ho,
        hb, if_pos hrange]
      rfl)
  obtain ⟨s, h1, h2, h3⟩ := h
  exact ⟨s, h1, h2, h3, rfl⟩

/-- C14, amended, for the body `{"start": 200, "end": 100}`. -/
theorem C14_invalid_time_range_witness :
    ∃ s, Metrics.GetMetricsHandler (handlerOver (.ok [])) 1700000000 1700000000 {}
        (getRequest "100" "0" (.ok { Start := 200, End := 100 })) = .done s ∧
      s.queries = [] ∧ Answered s {} 400 false INVALID_TIME_RANGE ∧ INVALID_TIME_RANGE = 104 :=
  C14_invalid_time_range (handlerOver (.ok [])) 1700000000 1700000000 {}
    (getRequest "100" "0" (.ok { Start := 200, End := 100 }))
    100 0 { Start := 200, End := 100 } returning_zero rfl rfl rfl rfl rfl (by decide)

/-- On a request that passes validation the handler is decided by the answer
of the store to one query. -/
theorem handler_validated (m : Metrics) (nowStart nowEnd : Int) (w : ResponseWriter)
    (r : Request) (limit offset : Int) (reqBody : MetricsRequest)
    (hm : r.Method = http.MethodGet) (hl : strconv.Atoi (r.var "limit") = .ok limit)
    (ho : strconv.Atoi (r.var "offset") = .ok offset) (hb : r.Body = .ok reqBody)
    (hrange : ¬ effectiveStart reqBody nowStart > effectiveEnd reqBody nowEnd)
    (limit1 offset1 : Int) (hlim : (if limit ≤ 0 then 100 else limit) = limit1)
    (hoff : (if offset < 0 then 0 else offset) = offset1) :
    m.GetMetricsHandler nowStart nowEnd w r =
      match m.store.GetMetrics (effectiveStart reqBody nowStart) (effectiveEnd reqBody nowEnd)
          limit1 offset1 with
      | .error err =>
        if err = context.Canceled then
          logThen m.logger [.int util.LOG_LEVEL_WARN, .str "Context cancelled"] fun logger =>
            .done { w := m.Response.WriteErrorResponseWithStatusCode w ErrRequestCancelled
                      http.StatusRequestTimeout,
                    logger := logger,
                    queries := [(effectiveStart reqBody nowStart, effectiveEnd reqBody nowEnd,
                      limit1, offset1)] }
        else
          logThen m.logger
            [.int util.LOG_LEVEL_ERROR, .str "Occured while GetMetrics(). Err - ",
             .other err.Error] fun logger =>
            .done { w := m.Response.WriteErrorResponse w err, logger := logger,
                    queries := [(effectiveStart reqBody nowStart, effectiveEnd reqBody nowEnd,
                      limit1, offset1)] }
      | .ok fetchedMetrics =>
        if fetchedMetrics.length = 0 then
          logThen m.logger [.int util.LOG_LEVEL_WARN, .str "Insufficient Metrics Data"]
            fun logger =>
            .done { w := m.Response.WriteErrorResponseWithStatusCode w ErrNoMetricsAvailable
                      http.StatusNotFound,
                    logger := logger,
                    queries := [(effectiveStart reqBody nowStart, effectiveEnd reqBody nowEnd,
                      limit1, offset1)] }
        else
          .done { w := m.Response.WriteResultResponse w fetchedMetrics, logger := m.logger,
                  queries := [(effectiveStart reqBody nowStart, effectiveEnd reqBody nowEnd,
                    limit1, offset1)] } := by
  subst hlim hoff
  unfold effectiveStart effectiveEnd at hrange ⊢
  simp only [Metrics.GetMetricsHandler, hm, ne_eq, not_true_eq_false, if_false, hl, ho, hb,
    if_neg hrange]

/-- C16: on a request that passes validation the handler makes exactly one
query to the store, with the limit replaced by 100 unless it is positive and
the offset replaced by 0 unless it is non-negative, so that the limit passed
is positive, the offset non-negative and the start not after the end; the
handler's result depends on the store through the answer to that query
only. -/
theorem C16_single_normalised_query (m : Metrics) (nowStart nowEnd : Int)
    (w : ResponseWriter) (r : Request) (limit offset : Int) (reqBody : MetricsRequest)
    (hret : util.Returning m.logger)
    (hm : r.Method = http.MethodGet) (hl : strconv.Atoi (r.var "limit") = .ok limit)
    (ho : strconv.Atoi (r.var "offset") = .ok offset) (hb : r.Body = .ok reqBody)
    (hrange : ¬ effectiveStart reqBody nowStart > effectiveEnd reqBody nowEnd) :
    ∃ s limit1 offset1, m.GetMetricsHandler nowStart nowEnd w r = .done s ∧
      s.queries = [(effectiveStart reqBody nowStart, effectiveEnd reqBody nowEnd,
        limit1, offset1)] ∧
      limit1 = (if limit > 0 then limit else 100) ∧
      offset1 = (if offset ≥ 0 then offset else 0) ∧
      0 < limit1 ∧ 0 ≤ offset1 ∧
      effectiveStart reqBody nowStart ≤ effectiveEnd reqBody nowEnd ∧
      ∀ store2 : MetricStore,
        store2.GetMetrics (effectiveStart reqBody nowStart) (effectiveEnd reqBody nowEnd)
            limit1 offset1 =
          m.store.GetMetrics (effectiveStart reqBody nowStart) (effectiveEnd reqBody nowEnd)
            limit1 offset1 →
        Metrics.GetMetricsHandler { m with store := store2 } nowStart nowEnd w r
          = m.GetMetricsHandler nowStart nowEnd w r := by
  have hlim : (if limit ≤ 0 then 100 else limit) = (if limit > 0 then limit else 100) := by
    split_ifs <;> omega
  have hoff : (if offset < 0 then 0 else offset) = (if offset ≥ 0 then offset else 0) := by
    split_ifs <;> omega
  generalize hL : (if limit > 0 then limit else 100) = limit1 at hlim
  generalize hO : (if offset ≥ 0 then offset else 0) = offset1 at hoff
  have hv := handler_validated m nowStart nowEnd w r limit offset reqBody hm hl ho hb hrange
    limit1 offset1 hlim hoff
  have hex : ∃ s, m.GetMetricsHandler nowStart nowEnd w r = .done s ∧
      s.queries = [(effectiveStart reqBody nowStart, effectiveEnd reqBody nowEnd,
        limit1, offset1)] := by
    rw [hv]
    cases m.store.GetMetrics (effectiveStart reqBody nowStart) (effectiveEnd reqBody nowEnd)
        limit1 offset1 with
    | error err =>
      simp only []
      split_ifs
      · obtain ⟨lw1, h1⟩ := logThen_done m.logger
          [.int util.LOG_LEVEL_WARN, .str "Context cancelled"]
          (m.Response.WriteErrorResponseWithStatusCode w ErrRequestCancelled
            http.StatusRequestTimeout)
          [(effectiveStart reqBody nowStart, effectiveEnd reqBody nowEnd, limit1, offset1)]
          hret
        exact ⟨_, h1, rfl⟩
      · obtain ⟨lw1, h1⟩ := logThen_done m.logger
          [.int util.LOG_LEVEL_ERROR, .str "Occured while GetMetrics(). Err - ",
           .other err.Error]
          (m.Response.WriteErrorResponse w err)
          [(effectiveStart reqBody nowStart, effectiveEnd reqBody nowEnd, limit1, offset1)]
          hret
        exact ⟨_, h1, rfl⟩
    | ok fetchedMetrics =>
      simp only []
      split_ifs
      · obtain ⟨lw1, h1⟩ := logThen_done m.logger
          [.int util.LOG_LEVEL_WARN, .str "Insufficient Metrics Data"]
          (m.Response.WriteErrorResponseWithStatusCode w ErrNoMetricsAvailable
            http.StatusNotFound)
          [(effectiveStart reqBody nowStart, effectiveEnd reqBody nowEnd, limit1, offset1)]
          hret
        exact ⟨_, h1, rfl⟩
      · exact ⟨_, rfl, rfl⟩
  obtain ⟨s, h1, h2⟩ := hex
  refine ⟨s, limit1, offset1, h1, h2, rfl, rfl, ?_, ?_, ?_, ?_⟩
  · rw [← hL]; split_ifs <;> omega
  · rw [← hO]; split_ifs <;> omega
  · omega
  · intro store2 hagree
    have hv2 := handler_validated { m with store := store2 } nowStart nowEnd w r limit
      offset reqBody hm hl ho hb hrange limit1 offset1 hlim hoff
    rw [hv, hv2]
    simp only [hagree]

/-- C16, for `limit = 0` and `offset = -5`: the store is queried with 100 and
0. -/
theorem C16_single_normalised_query_witness :
    ∃ s, Metrics.GetMetricsHandler (handlerOver (.ok [])) 1700000000 1700000000 {}
        (getRequest "0" "-5" (.ok { Start := 100, End := 200 })) = .done s ∧
      s.queries = [(100, 200, 100, 0)] :=
  match C16_single_normalised_query (handlerOver (.ok [])) 1700000000 1700000000 {}
      (getRequest "0" "-5" (.ok { Start := 100, End := 200 })) 0 (-5)
      { Start := 100, End := 200 } returning_zero rfl rfl rfl rfl (by decide) with
  | ⟨s, _, _, h1, h2, h3, h4, _⟩ => ⟨s, h1, by rw [h2, h3, h4]; rfl⟩

theorem WriteResultResponse_finite (res0 : APIResponse) (w : ResponseWriter)
    (result : List domain.Metric) (hfin : ∀ x ∈ result, x.cpuLoadFinite = true) :
    res0.WriteResultResponse w result =
      ((w.headerSet "Content-Type" "application/json").headerSet "Cache-Control"
        "no-cache").Write
        { res0 with Status := true, Value := some result, ErrorCode := GetErrorCode none } := by
  have hall : (result.all fun m => m.cpuLoadFinite) = true := by
    rw [List.all_eq_true]
    exact hfin
  simp only [APIResponse.WriteResultResponse, json.Marshal, hall, if_true,
    ResponseWriter.WriteBytes]

/-- C17, as stated, fails for a store that answers with a metric whose
`CPULoad` is positive infinity: `json.Marshal` fails, its error is dropped,
and the handler answers 200 with the JSON content type and an empty body
instead of the document holding the list. -/
theorem C17_infinite_cpu_load_gets_empty_body :
    ∃ s, Metrics.GetMetricsHandler
        (handlerOver
          (.ok [{ Timestamp := 150, CPULoad := 0x7FF0000000000000, Concurrency := 1 }]))
        1700000000 1700000000 {}
        (getRequest "10" "0" (.ok { Start := 100, End := 200 })) = .done s ∧
      s.w.Code = 200 ∧ s.w.header.lookup "Content-Type" = some "application/json" ∧
      s.w.Body = [] := by
  have hv := handler_validated
    (handlerOver
      (.ok [{ Timestamp := 150, CPULoad := 0x7FF0000000000000, Concurrency := 1 }]))
    1700000000 1700000000 {} (getRequest "10" "0" (.ok { Start := 100, End := 200 }))
    10 0 { Start := 100, End := 200 } rfl rfl rfl rfl (by decide) 10 0 rfl rfl
  refine ⟨{ w := APIResponse.WriteResultResponse {} {}
                [{ Timestamp := 150, CPULoad := 0x7FF0000000000000, Concurrency := 1 }],
            logger := {}, queries := [(100, 200, 10, 0)] }, ?_, ?_, ?_, ?_⟩
  · rw [hv]
    rfl
  · decide
  · decide
  · decide

/-- C17, amended: on a request that passes validation and whose query the
store answers without error, a handler made as `&Metrics{}` answers, on a
fresh response writer: for an empty list, 404 with `status` false and
`METRICS_NOT_AVAILABLE` (101); for a non-empty list all of whose `CPULoad`
values are finite numbers, 200 with `Content-Type: application/json` and the
document with `status` true, `error_code` `API_SUCCESS`, no error message, and
as value the list the store returned. -/
theorem C17_success_responses (m : Metrics) (nowStart nowEnd : Int)
    (w : ResponseWriter) (r : Request) (limit offset : Int) (reqBody : MetricsRequest)
    (fetchedMetrics : List domain.Metric)
    (hret : util.Returning m.logger) (hw : w.wroteHeader = false) (hR : m.Response = {})
    (hm : r.Method = http.MethodGet) (hl : strconv.Atoi (r.var "limit") = .ok limit)
    (ho : strconv.Atoi (r.var "offset") = .ok offset) (hb : r.Body = .ok reqBody)
    (hrange : ¬ effectiveStart reqBody nowStart > effectiveEnd reqBody nowEnd)
    (hstore : m.store.GetMetrics (effectiveStart reqBody nowStart)
      (effectiveEnd reqBody nowEnd) (if limit ≤ 0 then 100 else limit)
      (if offset < 0 then 0 else offset) = .ok fetchedMetrics) :
    (fetchedMetrics = [] →
      ∃ s, m.GetMetricsHandler nowStart nowEnd w r = .done s ∧
        Answered s w 404 false METRICS_NOT_AVAILABLE ∧ METRICS_NOT_AVAILABLE = 101) ∧
    (fetchedMetrics ≠ [] → (∀ x ∈ fetchedMetrics, x.cpuLoadFinite = true) →
      ∃ s, m.GetMetricsHandler nowStart nowEnd w r = .done s ∧ s.w.Code = 200 ∧
        s.w.header.lookup "Content-Type" = some "application/json" ∧
        s.w.Body = w.Body ++
          [{ Status := true, Value := some fetchedMetrics, Error := "",
             ErrorCode := API_SUCCESS }]) := by
  have hv := handler_validated m nowStart nowEnd w r limit offset reqBody hm hl ho hb hrange
    _ _ rfl rfl
  rw [hstore] at hv
  simp only [] at hv
  refine ⟨?_, ?_⟩
  · intro hempty
    have hlen : fetchedMetrics.length = 0 := by simp [hempty]
    rw [if_pos hlen] at hv
    obtain ⟨s, h1, _, h3⟩ := errorPath_answered m w
      [.int util.LOG_LEVEL_WARN, .str "Insufficient Metrics Data"] ErrNoMetricsAvailable 404
      METRICS_NOT_AVAILABLE _ (m.GetMetricsHandler nowStart nowEnd w r) hret hw (by decide)
      (by decide) hv
    exact ⟨s, h1, h3, rfl⟩
  · intro hne hfin
    have hlen : ¬ fetchedMetrics.length = 0 := by
      simpa [List.length_eq_zero] using hne
    rw [if_neg hlen, WriteResultResponse_finite m.Response w fetchedMetrics hfin] at hv
    refine ⟨_, hv, ?_, ?_, ?_⟩
    · simp [ResponseWriter.headerSet, ResponseWriter.Write, hw, http.StatusOK]
    · simp [ResponseWriter.headerSet, ResponseWriter.Write, hw, List.lookup]
    · simp [ResponseWriter.headerSet, ResponseWriter.Write, hw, hR, GetErrorCode]

/-- C17, amended, for a store answering with one metric of `CPULoad` 0. -/
theorem C17_success_responses_witness :
    ∃ s, Metrics.GetMetricsHandler
        (handlerOver (.ok [{ Timestamp := 150, CPULoad := 0, Concurrency := 1 }]))
        1700000000 1700000000 {}
        (getRequest "10" "0" (.ok { Start := 100, End := 200 })) = .done s ∧
      s.w.Code = 200 ∧ s.w.header.lookup "Content-Type" = some "application/json" ∧
      s.w.Body = [{ Status := true,
                    Value := some [{ Timestamp := 150, CPULoad := 0, Concurrency := 1 }],
                    Error := "", ErrorCode := API_SUCCESS }] :=
  (C17_success_responses
    (handlerOver (.ok [{ Timestamp := 150, CPULoad := 0, Concurrency := 1 }]))
    1700000000 1700000000 {} (getRequest "10" "0" (.ok { Start := 100, End := 200 })) 10 0
    { Start := 100, End := 200 } [{ Timestamp := 150, CPULoad := 0, Concurrency := 1 }]
    returning_zero rfl rfl rfl rfl rfl rfl (by decide) rfl).2 (by simp) (by decide)

/-- C15, with the SQLite store and a cancelled context: `GetMetrics` returns
the cancellation wrapped as "error querying database: context canceled"; the
handler, which compares the error with `context.Canceled` by `==`, takes the
generic error path and answers 200 with `API_FAILURE`, not 408 with
`REQUEST_CANCELLED`.  With a store that returns `context.Canceled` itself the
answer is 408 with `REQUEST_CANCELLED`. -/
theorem C15_wrapped_cancellation_gets_generic_error :
    repository.SQLiteStore.GetMetrics { rows := [] } (some context.Canceled) 100 200 10 0
      = .error (.wrapped "error querying database: context canceled" context.Canceled) ∧
    (∃ s, Metrics.GetMetricsHandler
        { logger := {},
          store := repository.SQLiteStore.asStore { rows := [] } (some context.Canceled) }
        1700000000 1700000000 {}
        (getRequest "10" "0" (.ok { Start := 100, End := 200 })) = .done s ∧
      Answered s {} 200 false API_FAILURE) ∧
    (∃ s, Metrics.GetMetricsHandler (handlerOver (.error context.Canceled))
        1700000000 1700000000 {}
        (getRequest "10" "0" (.ok { Start := 100, End := 200 })) = .done s ∧
      Answered s {} 408 false REQUEST_CANCELLED) := by
  refine ⟨rfl, ?_, ?_⟩
  · have hv := handler_validated
      { logger := {},
        store := repository.SQLiteStore.asStore { rows := [] } (some context.Canceled) }
      1700000000 1700000000 {} (getRequest "10" "0" (.ok { Start := 100, End := 200 }))
      10 0 { Start := 100, End := 200 } rfl rfl rfl rfl (by decide) 10 0 rfl rfl
    refine ⟨{ w := APIResponse.WriteErrorResponse {} {}
                (.wrapped "error querying database: context canceled" context.Canceled),
              logger := {}, queries := [(100, 200, 10, 0)] }, ?_, ?_⟩
    · rw [hv]
      rfl
    · exact ⟨rfl, _, rfl, rfl, by decide⟩
  · have hv := handler_validated (handlerOver (.error context.Canceled))
      1700000000 1700000000 {} (getRequest "10" "0" (.ok { Start := 100, End := 200 }))
      10 0 { Start := 100, End := 200 } rfl rfl rfl rfl (by decide) 10 0 rfl rfl
    refine ⟨{ w := APIResponse.WriteErrorResponseWithStatusCode {} {} ErrRequestCancelled 408,
              logger := {}, queries := [(100, 200, 10, 0)] }, ?_, ?_⟩
    · rw [hv]
      rfl
    · exact ⟨rfl, _, rfl, rfl, by decide⟩

end endpoints

/-! ## The query of the SQLite store -/

namespace repository

theorem sorted_strict_of_nodup (L : List Row)
    (hs : L.Sorted fun a b => a.timestamp ≤ b.timestamp)
    (hn : (L.map fun r => r.timestamp).Nodup) :
    L.Sorted fun a b => a.timestamp < b.timestamp := by
  have hne : L.Pairwise fun a b => a.timestamp ≠ b.timestamp := by
    have := hn
    rw [List.Nodup, List.pairwise_map] at this
    exact this
  have hboth := List.Pairwise.and hs hne
  exact hboth.imp fun h => lt_of_le_of_ne h.1 h.2

theorem filterMap_drop_of_isSome (L : List Row) : ∀ (n : Nat),
    (∀ r ∈ L, (Row.Scan r).isSome = true) →
    (L.drop n).filterMap Row.Scan = (L.filterMap Row.Scan).drop n := by
  induction L with
  | nil => intro n _; simp
  | cons x xs ih =>
    intro n h
    cases n with
    | zero => simp
    | succ n =>
      have hx := h x (List.mem_cons_self x xs)
      obtain ⟨y, hy⟩ := Option.isSome_iff_exists.mp hx
      have hxs : ∀ r ∈ xs, (Row.Scan r).isSome = true :=
        fun r hr => h r (List.mem_cons_of_mem x hr)
      simp [List.filterMap_cons, hy, ih n hxs]

theorem filterMap_take_of_isSome (L : List Row) : ∀ (n : Nat),
    (∀ r ∈ L, (Row.Scan r).isSome = true) →
    (L.take n).filterMap Row.Scan = (L.filterMap Row.Scan).take n := by
  induction L with
  | nil => intro n _; simp
  | cons x xs ih =>
    intro n h
    cases n with
    | zero => simp
    | succ n =>
      have hx := h x (List.mem_cons_self x xs)
      obtain ⟨y, hy⟩ := Option.isSome_iff_exists.mp hx
      have hxs : ∀ r ∈ xs, (Row.Scan r).isSome = true :=
        fun r hr => h r (List.mem_cons_of_mem x hr)
      simp [List.filterMap_cons, hy, ih n hxs]

theorem Scan_rowOf (metric : domain.Metric) (h : metric.cpuLoadNaN = false) :
    Row.Scan (rowOf metric) = some metric := by
  simp [Row.Scan, rowOf, h]

/-- C18, as stated, fails on the table made by storing a metric with
timestamp 10 and a NaN `CPULoad`, then one with timestamp 20: both inserts
succeed, the first row holds NULL for `cpu_load`, and `GetMetrics(ctx, 0, 100,
1, 0)` returns no metric, the one row kept by `LIMIT 1` failing to scan;
with no limit the metric of timestamp 10 is missing from the result. -/
theorem C18_unscannable_row_takes_a_slot :
    (SQLiteStore.StoreMetric { rows := [] }
      { Timestamp := 10, CPULoad := 0x7FF8000000000000, Concurrency := 1 }).2 = none ∧
    (SQLiteStore.StoreMetric
      (SQLiteStore.StoreMetric { rows := [] }
        { Timestamp := 10, CPULoad := 0x7FF8000000000000, Concurrency := 1 }).1
      { Timestamp := 20, CPULoad := 0, Concurrency := 2 }).2 = none ∧
    SQLiteStore.GetMetrics
      (storeAll [{ Timestamp := 10, CPULoad := 0x7FF8000000000000, Concurrency := 1 },
                 { Timestamp := 20, CPULoad := 0, Concurrency := 2 }])
      none 0 100 1 0 = .ok [] ∧
    SQLiteStore.GetMetrics
      (storeAll [{ Timestamp := 10, CPULoad := 0x7FF8000000000000, Concurrency := 1 },
                 { Timestamp := 20, CPULoad := 0, Concurrency := 2 }])
      none 0 100 0 0 = .ok [{ Timestamp := 20, CPULoad := 0, Concurrency := 2 }] := by
  refine ⟨rfl, rfl, rfl, rfl⟩

/-- C18, amended: with a live context, `SQLiteStore.GetMetrics` on a table
whose timestamps are pairwise distinct returns no error; SQLite takes the rows
with `startTime <= timestamp <= endTime` in ascending timestamp order, leaves
out the first `max(offset, 0)` of them and keeps at most `limit` of the rest
when `limit` is positive (all of them when `limit <= 0`), and the result is
the metrics of those of the kept rows that scan, in the same order; when the
offset reaches the number of rows in the range the result is empty.  When
every row in the range scans, the result is the metrics in the range in
ascending order, paged in that way; a metric stored with a `CPULoad` other
than NaN gives a row that scans to that metric. -/
theorem C18_GetMetrics_range_order_page (s : SQLiteStore)
    (startTime endTime limit offset : Int)
    (hnodup : (s.rows.map fun r => r.timestamp).Nodup) :
    ∃ (L : List Row) (result : List domain.Metric),
      s.GetMetrics none startTime endTime limit offset = .ok result ∧
      L.Perm (s.rows.filter fun r =>
        decide (startTime ≤ r.timestamp ∧ r.timestamp ≤ endTime)) ∧
      L.Sorted (fun a b => a.timestamp < b.timestamp) ∧
      result = (if limit ≤ 0 then L.drop (max offset 0).toNat
                else (L.drop (max offset 0).toNat).take limit.toNat).filterMap Row.Scan ∧
      (L.length ≤ (max offset 0).toNat → result = []) ∧
      ((∀ r ∈ L, (Row.Scan r).isSome = true) →
        result = (if limit ≤ 0 then (L.filterMap Row.Scan).drop (max offset 0).toNat
                  else ((L.filterMap Row.Scan).drop (max offset 0).toNat).take limit.toNat)) ∧
      (∀ metric : domain.Metric, metric.cpuLoadNaN = false →
        Row.Scan (rowOf metric) = some metric) := by
  haveI : IsTotal Row fun a b => a.timestamp ≤ b.timestamp :=
    ⟨fun a b => le_total a.timestamp b.timestamp⟩
  haveI : IsTrans Row fun a b => a.timestamp ≤ b.timestamp :=
    ⟨fun _ _ _ h1 h2 => le_trans h1 h2⟩
  let inRange := s.rows.filter fun r =>
    decide (startTime ≤ r.timestamp ∧ r.timestamp ≤ endTime)
  let L := inRange.insertionSort fun a b => a.timestamp ≤ b.timestamp
  have hperm : L.Perm inRange := List.perm_insertionSort _ inRange
  have hsorted : L.Sorted fun a b => a.timestamp ≤ b.timestamp :=
    List.sorted_insertionSort _ inRange
  have hn : (L.map fun r => r.timestamp).Nodup := by
    have h1 : (inRange.map fun r => r.timestamp).Nodup :=
      hnodup.sublist ((List.filter_sublist s.rows).map _)
    exact (hperm.map _).nodup_iff.mpr h1
  have hoff : (if offset < 0 then 0 else offset) = max offset 0 := by
    split_ifs <;> omega
  have hres : s.GetMetrics none startTime endTime limit offset =
      .ok ((if limit ≤ 0 then L.drop (max offset 0).toNat
            else (L.drop (max offset 0).toNat).take limit.toNat).filterMap Row.Scan) := by
    simp only [SQLiteStore.GetMetrics, sqlSelect, hoff]
    by_cases hl : limit ≤ 0
    · simp [hl, L, inRange]
    · have h2 : ¬ limit < 0 := by omega
      simp [hl, h2, L, inRange]
  refine ⟨L, _, hres, hperm, sorted_strict_of_nodup L hsorted hn, rfl, ?_, ?_, Scan_rowOf⟩
  · intro hlen
    have hdrop : L.drop (max offset 0).toNat = [] := List.drop_eq_nil_of_le hlen
    simp [hdrop]
  · intro hall
    have hdropall : ∀ r ∈ L.drop (max offset 0).toNat, (Row.Scan r).isSome = true :=
      fun r hr => hall r (List.mem_of_mem_drop hr)
    by_cases hl : limit ≤ 0
    · simp only [if_pos hl]
      exact filterMap_drop_of_isSome L _ hall
    · simp only [if_neg hl]
      rw [filterMap_take_of_isSome _ _ hdropall, filterMap_drop_of_isSome L _ hall]

/-- C18, amended, on a table of four complete rows with `limit = 2`,
`offset = 2`. -/
theorem C18_GetMetrics_range_order_page_witness :
    ∃ (L : List Row) (result : List domain.Metric),
      SQLiteStore.GetMetrics
        (storeAll [{ Timestamp := 30, CPULoad := 0, Concurrency := 300 },
                   { Timestamp := 10, CPULoad := 0, Concurrency := 100 },
                   { Timestamp := 40, CPULoad := 0, Concurrency := 400 },
                   { Timestamp := 20, CPULoad := 0, Concurrency := 200 }])
        none 0 100 2 2 = .ok result ∧
      L.Sorted (fun a b => a.timestamp < b.timestamp) ∧
      result = (if (2 : Int) ≤ 0 then L.drop (max (2 : Int) 0).toNat
                else (L.drop (max (2 : Int) 0).toNat).take (2 : Int).toNat).filterMap
                  Row.Scan :=
  match C18_GetMetrics_range_order_page
      (storeAll [{ Timestamp := 30, CPULoad := 0, Concurrency := 300 },
                 { Timestamp := 10, CPULoad := 0, Concurrency := 100 },
                 { Timestamp := 40, CPULoad := 0, Concurrency := 400 },
                 { Timestamp := 20, CPULoad := 0, Concurrency := 200 }])
      0 100 2 2 (by decide) with
  | ⟨L, result, h1, _, h3, h4, _⟩ => ⟨L, result, h1, h3, h4⟩

theorem GetMetrics_example :
    SQLiteStore.GetMetrics
      (storeAll [{ Timestamp := 30, CPULoad := 0, Concurrency := 300 },
                 { Timestamp := 10, CPULoad := 0, Concurrency := 100 },
                 { Timestamp := 40, CPULoad := 0, Concurrency := 400 },
                 { Timestamp := 20, CPULoad := 0, Concurrency := 200 }])
      none 0 100 2 2
      = .ok [{ Timestamp := 30, CPULoad := 0, Concurrency := 300 },
             { Timestamp := 40, CPULoad := 0, Concurrency := 400 }] := by
  rfl

end repository

/-! ## The rendering of the message -/

namespace util

theorem SprintfSlice_size (s : List GoVal) : 2 ≤ (fmt.SprintfSlice s).utf8ByteSize := by
  have h : fmt.SprintfSlice s = String.mk ('[' :: ((joinArgs s).data ++ [']'])) := by
    apply String.ext
    simp [fmt.SprintfSlice, joinArgs, String.data_append]
  rw [h]
  simp only [String.utf8ByteSize_mk, String.utf8Len_cons, String.utf8Len_append,
    String.utf8Len_nil]
  have h1 : 0 < Char.utf8Size '[' := Char.utf8Size_pos _
  have h2 : 0 < Char.utf8Size ']' := Char.utf8Size_pos _
  omega

theorem render_strs (strs : List String) : (strs.map GoVal.str).map fmt.render = strs := by
  induction strs with
  | nil => rfl
  | cons x rest ih => simp [fmt.render, ih]

theorem joinArgs_strs (strs : List String) : joinArgs (strs.map GoVal.str) = " ".intercalate strs := by
  rw [joinArgs, render_strs]

/-- C19: the bracketed rendering of any argument list has at least two bytes
and taking its first and last character off never fails, so that `LogEvent`
builds an event from every argument list.  With a leading recognised level
followed by the strings `s1 .. sn` (n >= 1), and with two or more arguments
that are all strings, the message enqueued is the strings joined by single
spaces, without brackets; with a single string argument it is that string. -/
theorem C19_message_of_string_fragments (w : World) (c : Chan)
    (hrun : w.m.loggerInitialized = true) (hc : w.m.logBuffer = some c)
    (hopen : c.closed = false) (hroom : c.buf.length < c.cap) :
    (∀ s : List GoVal, 2 ≤ (fmt.SprintfSlice s).utf8ByteSize ∧
      sliceInner (fmt.SprintfSlice s) = some (joinArgs s)) ∧
    (∀ v, ∃ ev, buildEvent v = some ev ∧ LogEvent w v = .done (enqueue w c ev, none)) ∧
    (∀ (n : Int) (s1 : String) (strs : List String), isLevel n →
      LogEvent w (.int n :: .str s1 :: strs.map GoVal.str) =
        .done (enqueue w c { level := n, logMsg := " ".intercalate (s1 :: strs) }, none)) ∧
    (∀ (s1 s2 : String) (strs : List String),
      LogEvent w (.str s1 :: .str s2 :: strs.map GoVal.str) =
        .done (enqueue w c
          { level := LOG_LEVEL_INFO, logMsg := " ".intercalate (s1 :: s2 :: strs) }, none)) ∧
    (∀ s1 : String,
      LogEvent w [.str s1] = .done (enqueue w c { level := LOG_LEVEL_INFO, logMsg := s1 }, none)) := by
  refine ⟨?_, ?_, ?_, ?_, ?_⟩
  · intro s
    exact ⟨SprintfSlice_size s, by simp [fmt.SprintfSlice, joinArgs, sliceInner_brackets]⟩
  · intro v
    obtain ⟨ev, hev⟩ := buildEvent_total v
    exact ⟨ev, hev, LogEvent_room w v c ev hrun hc hopen hroom hev⟩
  · intro n s1 strs hn
    have h := buildEvent_level n (.str s1) (strs.map GoVal.str) hn
    have hj : joinArgs (.str s1 :: strs.map GoVal.str) = " ".intercalate (s1 :: strs) :=
      joinArgs_strs (s1 :: strs)
    rw [hj] at h
    exact LogEvent_room w _ c _ hrun hc hopen hroom h
  · intro s1 s2 strs
    have h := buildEvent_fallback (.str s1) (.str s2) (strs.map GoVal.str)
      (fun n hn => by simp at hn)
    have hj : joinArgs (.str s1 :: .str s2 :: strs.map GoVal.str)
        = " ".intercalate (s1 :: s2 :: strs) := joinArgs_strs (s1 :: s2 :: strs)
    rw [hj] at h
    exact LogEvent_room w _ c _ hrun hc hopen hroom h
  · intro s1
    exact LogEvent_room w _ c _ hrun hc hopen hroom (buildEvent_single (.str s1))

/-- C19, at a logger just initialised: `LogEvent(LOG_LEVEL_WARN, "disk",
"almost", "full")` enqueues the message `disk almost full`. -/
theorem C19_message_of_string_fragments_witness :
    LogEvent freshRunning [.int 2, .str "disk", .str "almost", .str "full"] =
      .done (enqueue freshRunning { buf := [], cap := LOG_BUFFER_SIZE, closed := false }
        { level := 2, logMsg := "disk almost full" }, none) :=
  (C19_message_of_string_fragments freshRunning
    { buf := [], cap := LOG_BUFFER_SIZE, closed := false } rfl rfl rfl
    (by simp [LOG_BUFFER_SIZE])).2.2.1 2 "disk" ["almost", "full"] (Or.inr (Or.inl rfl))

end util

/-! ## Thresholds outside the four levels -/

namespace util

theorem GlobalLogLevelSetter_other (g : Globals) (t : Int) (ht : ¬ isLevel t) :
    GlobalLogLevelSetter (SetCommonLoggerAttributes g t) = zapcore.InfoLevel := by
  simp only [isLevel, not_or] at ht
  obtain ⟨h1, h2, h3, h4⟩ := ht
  simp [GlobalLogLevelSetter, SetCommonLoggerAttributes, h1, h2, h3, h4, zapcore.InfoLevel]

theorem GlobalLogLevelSetter_info (g : Globals) :
    GlobalLogLevelSetter (SetCommonLoggerAttributes g LOG_LEVEL_INFO) = zapcore.InfoLevel := by
  simp [GlobalLogLevelSetter, SetCommonLoggerAttributes, LOG_LEVEL_INFO, LOG_LEVEL_ERROR,
    LOG_LEVEL_WARN]

/-- C20: for a threshold `t` outside the four levels, `GlobalLogLevelSetter`
returns zap's `InfoLevel` after `SetCommonLoggerAttributes(t)`; `Init` then
builds the same logger as after `SetCommonLoggerAttributes(LOG_LEVEL_INFO)`,
and its writer issues the write for ERROR, WARN and INFO events and none for
DEBUG events, taking each out of the queue. -/
theorem C20_unknown_threshold_filters_as_info (g : Globals) (t : Int) (ht : ¬ isLevel t) :
    GlobalLogLevelSetter (SetCommonLoggerAttributes g t) = zapcore.InfoLevel ∧
    (∀ OpenFile w logFileName rewrite,
      Init (SetCommonLoggerAttributes g t) OpenFile w logFileName rewrite =
        Init (SetCommonLoggerAttributes g LOG_LEVEL_INFO) OpenFile w logFileName rewrite) ∧
    (∀ (f : File) (ev : LeveledLogger) (rest : List LeveledLogger), isLevel ev.level →
      (ev :: rest).length ≤ LOG_BUFFER_SIZE →
      ∃ w1 f1, writerStep (runningWith (SetCommonLoggerAttributes g t) f (ev :: rest))
          = .done w1 ∧
        w1.m.handle = some f1 ∧ queue w1 = rest ∧
        f1.attempts = f.attempts ++ (if ev.level = LOG_LEVEL_DEBUG then [] else [entryOf ev])) := by
  have hlev : GlobalLogLevelSetter (SetCommonLoggerAttributes g t) =
      GlobalLogLevelSetter (SetCommonLoggerAttributes g LOG_LEVEL_INFO) := by
    rw [GlobalLogLevelSetter_other g t ht, GlobalLogLevelSetter_info g]
  refine ⟨GlobalLogLevelSetter_other g t ht, ?_, ?_⟩
  · intro OpenFile w logFileName rewrite
    simp only [Init, zapLoggerInit, hlev]
    rfl
  · intro f ev rest hev hlen
    have hsame : runningWith (SetCommonLoggerAttributes g t) f (ev :: rest) =
        runningWith (SetCommonLoggerAttributes g LOG_LEVEL_INFO) f (ev :: rest) := by
      simp only [runningWith, hlev]
    rw [hsame]
    have hs := serving_runningWith (SetCommonLoggerAttributes g LOG_LEVEL_INFO) f (ev :: rest)
      hlen
    have ht3 : isLevel (SetCommonLoggerAttributes g LOG_LEVEL_INFO).globalLogLevel :=
      Or.inr (Or.inr (Or.inl rfl))
    obtain ⟨w1, z, z1, f0, f1, h1, _, h3, _, _, h6, h7, _, h9, _⟩ :=
      writerStep_effect (SetCommonLoggerAttributes g LOG_LEVEL_INFO) _ ht3 hs ev rest rfl
    have hf0 : f0 = f := by
      have : (runningWith (SetCommonLoggerAttributes g LOG_LEVEL_INFO) f
        (ev :: rest)).m.handle = some f := rfl
      rw [this] at h6
      simp at h6
      exact h6.symm
    subst hf0
    refine ⟨w1, f1, h1, h7, h3, ?_⟩
    rw [h9]
    congr 1
    rcases hev with h | h | h | h <;>
      simp [entriesOf, passes, isLevel, ShouldEmit, SetCommonLoggerAttributes, h,
        LOG_LEVEL_ERROR, LOG_LEVEL_WARN, LOG_LEVEL_INFO, LOG_LEVEL_DEBUG]

/-- C20, for the threshold 0 and a DEBUG event followed by an ERROR event: the
DEBUG event leaves the queue and nothing is written. -/
theorem C20_unknown_threshold_filters_as_info_witness :
    ∃ w1 f1,
      writerStep (runningWith (SetCommonLoggerAttributes {} 0) { lines := [] }
        [{ level := 4, logMsg := "d" }, { level := 1, logMsg := "e" }]) = .done w1 ∧
      w1.m.handle = some f1 ∧ queue w1 = [{ level := 1, logMsg := "e" }] ∧
      f1.attempts = [] :=
  match (C20_unknown_threshold_filters_as_info {} 0 (by decide)).2.2 { lines := [] }
      { level := 4, logMsg := "d" } [{ level := 1, logMsg := "e" }]
      (Or.inr (Or.inr (Or.inr rfl))) (by decide) with
  | ⟨w1, f1, h1, h2, h3, h4⟩ => ⟨w1, f1, h1, h2, h3, h4⟩

end util
